import Mathlib

/-!
Shallow embedding of the search-and-ranking engine of `src/bin/search.repo.js`
(class `SearchRepository`). JavaScript numbers are modelled as real numbers,
stored rows as explicit lists, thrown exceptions as `Except` errors, and the
stable `Array.prototype.sort` as `List.mergeSort` (ES2019 requires sort
stability). Each definition mirrors one function of the source file.
-/

namespace SearchRepo

/-- Error taxonomy of the engine: a length mismatch between compared vectors
(`throw new Error('Vectors must have the same length')`) and a stored embedding
that cannot be decoded into a numeric vector (a `JSON.parse` failure). -/
inductive SearchError where
  | dimensionMismatch
  | malformedEmbedding
deriving DecidableEq

/-- The `embedding` column of the `embeddings` table as the engine sees it
after fetching a row: either text that decodes (`JSON.parse`) to a numeric
vector, or text whose decoding fails. -/
inductive EmbCol where
  | vec (v : List ℝ)
  | malformed

/-- Models `JSON.parse(doc.embedding)` on an `embedding` column value
(search.repo.js line 68): the decoded vector, or a thrown decode error. -/
def parseEmbedding : EmbCol → Except SearchError (List ℝ)
  | .vec v => .ok v
  | .malformed => .error .malformedEmbedding

/-- Models `cosineSimilarity(vecA, vecB)` (search.repo.js lines 15-29): guard on
equal length, one pass accumulating the dot product and both squared norms,
then `magnitude === 0 ? 0 : dotProduct / magnitude` with
`magnitude = Math.sqrt(normA) * Math.sqrt(normB)`. -/
noncomputable def cosineSimilarity (vecA vecB : List ℝ) : Except SearchError ℝ :=
  if vecA.length ≠ vecB.length then .error .dimensionMismatch
  else
    let dotProduct := (vecA.zip vecB).foldl (fun s p => s + p.1 * p.2) 0
    let normA := (vecA.zip vecB).foldl (fun s p => s + p.1 * p.1) 0
    let normB := (vecA.zip vecB).foldl (fun s p => s + p.2 * p.2) 0
    let magnitude := Real.sqrt normA * Real.sqrt normB
    .ok (if magnitude = 0 then 0 else dotProduct / magnitude)

/-- Models `euclideanDistance(vecA, vecB)` (search.repo.js lines 31-40): guard
on equal length, then the square root of the sum of squared coordinate
differences. -/
noncomputable def euclideanDistance (vecA vecB : List ℝ) : Except SearchError ℝ :=
  if vecA.length ≠ vecB.length then .error .dimensionMismatch
  else .ok (Real.sqrt ((vecA.zip vecB).foldl (fun s p => s + (p.1 - p.2) ^ 2) 0))

/-- A row of the `documents` table. `created_at` timestamps are modelled as
integers ordered as the stored values compare in SQL. -/
structure Document where
  id : ℕ
  title : String
  content : String
  created_at : ℤ

/-- A row of the `embeddings` table. -/
structure EmbeddingRow where
  document_id : ℕ
  embedding : EmbCol

/-- The database the repository class holds: the two tables, each in its
stored row order. -/
structure DB where
  documents : List Document
  embeddings : List EmbeddingRow

/-- Models the base query of `searchSimilar` (lines 45-54):
`FROM documents d JOIN embeddings e ON d.id = e.document_id`, rows produced in
nested-loop order over the stored tables. -/
def joinRows (db : DB) : List (Document × EmbCol) :=
  db.documents.flatMap fun d =>
    (db.embeddings.filter fun e => e.document_id == d.id).map fun e => (d, e.embedding)

/-- The optional `filters` argument of `searchSimilar` (interface
`SearchFilters` of search.repo.d.ts). The `categories` field is declared by the
interface but never read by the implementation, so it is omitted here. -/
structure SearchFilters where
  startDate : Option ℤ
  endDate : Option ℤ
  minSimilarity : Option ℝ
  maxResults : Option ℕ

/-- A `SearchFilters` value with every field absent. -/
def noFilters : SearchFilters := ⟨none, none, none, none⟩

/-- Models lines 58-64: the `WHERE d.created_at BETWEEN ? AND ?` condition is
added only when `filters?.startDate && filters?.endDate` are both present
(the stored dates are strings, truthy when present), and `BETWEEN` is
inclusive on both ends. -/
def candidateRows (db : DB) (filters : Option SearchFilters) : List (Document × EmbCol) :=
  match filters with
  | none => joinRows db
  | some f =>
    match f.startDate, f.endDate with
    | some s, some e =>
      (joinRows db).filter fun p => decide (s ≤ p.1.created_at) && decide (p.1.created_at ≤ e)
    | _, _ => joinRows db

/-- One element of the mapped `similarities` array (lines 67-92): the document
columns together with the `similarity` and `distance` views of the comparison. -/
structure ScoredResult where
  id : ℕ
  title : String
  content : String
  created_at : ℤ
  similarity : ℝ
  distance : ℝ

/-- Models the body of the `allDocs.map` callback (lines 67-92): decode the
stored embedding, then in cosine mode `distance = 1 - similarity`, in Euclidean
mode `similarity = 1 / (1 + distance)`. A thrown error propagates. -/
noncomputable def scoreDoc (queryEmbedding : List ℝ) (useCosineSimilarity : Bool)
    (d : Document) (e : EmbCol) : Except SearchError ScoredResult := do
  let docEmbedding ← parseEmbedding e
  if useCosineSimilarity then
    let similarity ← cosineSimilarity queryEmbedding docEmbedding
    pure ⟨d.id, d.title, d.content, d.created_at, similarity, 1 - similarity⟩
  else
    let distance ← euclideanDistance queryEmbedding docEmbedding
    pure ⟨d.id, d.title, d.content, d.created_at, 1 / (1 + distance), distance⟩

/-- `Array.prototype.map` over a callback that can throw: the callback runs
left to right and the first thrown error aborts the whole map. -/
def mapE {α β : Type} (f : α → Except SearchError β) : List α → Except SearchError (List β)
  | [] => .ok []
  | a :: as => do
    let b ← f a
    let bs ← mapE f as
    pure (b :: bs)

/-- The `similarities` array of `searchSimilar` (lines 67-92): every candidate
row scored against the query vector. -/
noncomputable def scoredCandidates (db : DB) (queryEmbedding : List ℝ)
    (useCosineSimilarity : Bool) (filters : Option SearchFilters) :
    Except SearchError (List ScoredResult) :=
  mapE (fun p => scoreDoc queryEmbedding useCosineSimilarity p.1 p.2) (candidateRows db filters)

/-- Models lines 93-97: `if (filters?.minSimilarity)` is a JavaScript
truthiness test, so the filter runs only when `minSimilarity` is present and
nonzero; it keeps documents with `doc.similarity >= filters.minSimilarity`. -/
noncomputable def applyMinSimilarity (filters : Option SearchFilters)
    (similarities : List ScoredResult) : List ScoredResult :=
  match filters with
  | some f =>
    match f.minSimilarity with
    | some m =>
      if m ≠ 0 then similarities.filter (fun doc => decide (m ≤ doc.similarity))
      else similarities
    | none => similarities
  | none => similarities

/-- The comparator of line 99, `(a, b) => b.similarity - a.similarity`, as the
order it induces: `a` may stay before `b` exactly when the comparator is
nonpositive, i.e. `b.similarity ≤ a.similarity`. -/
noncomputable def simDescBool (a b : ScoredResult) : Bool :=
  decide (b.similarity ≤ a.similarity)

/-- Models line 100, `const maxResults = filters?.maxResults || limit`: the
`||` falls through to `limit` when `maxResults` is absent or zero (falsy),
otherwise `maxResults` replaces `limit` outright. -/
def effectiveMax (limit : ℕ) (filters : Option SearchFilters) : ℕ :=
  match filters with
  | some f =>
    match f.maxResults with
    | some m => if m ≠ 0 then m else limit
    | none => limit
  | none => limit

/-- Models `searchSimilar(queryEmbedding, limit, useCosineSimilarity, filters)`
(search.repo.js lines 42-107): score all candidate rows, filter by
`minSimilarity` when truthy, stable-sort descending by `similarity`, and
`slice(0, maxResults)`. -/
noncomputable def searchSimilar (db : DB) (queryEmbedding : List ℝ) (limit : ℕ)
    (useCosineSimilarity : Bool) (filters : Option SearchFilters) :
    Except SearchError (List ScoredResult) := do
  let similarities ← scoredCandidates db queryEmbedding useCosineSimilarity filters
  pure (((applyMinSimilarity filters similarities).mergeSort simDescBool).take
    (effectiveMax limit filters))

/-- Boolean check that one character list starts with another. -/
def charsStartWith : List Char → List Char → Bool
  | [], _ => true
  | _ :: _, [] => false
  | a :: as, b :: bs => (a == b) && charsStartWith as bs

/-- Boolean check that the first character list occurs contiguously inside the
second. -/
def charsOccurIn (needle : List Char) : List Char → Bool
  | [] => needle.isEmpty
  | b :: bs => charsStartWith needle (b :: bs) || charsOccurIn needle bs

/-- Models the SQL predicate `column LIKE '%term%'` (lines 114 and 118):
substring match, case-insensitive as SQLite's `LIKE` is for ASCII. -/
def likeMatch (column term : String) : Bool :=
  charsOccurIn (term.toList.map Char.toLower) (column.toList.map Char.toLower)

/-- The `WHERE d.title LIKE ? OR d.content LIKE ?` condition of `searchByText`
(line 114). -/
def textWhere (searchTerm : String) (d : Document) : Bool :=
  likeMatch d.title searchTerm || likeMatch d.content searchTerm

/-- The `ORDER BY d.created_at DESC` order of line 115 as a sort comparator;
rows that tie are modelled as keeping their stored order. -/
def createdDescBool (a b : Document) : Bool :=
  decide (b.created_at ≤ a.created_at)

/-- Models `searchByText(searchTerm, limit)` (search.repo.js lines 109-126):
documents whose title or content contains the term, newest first, capped at
`limit`. -/
def searchByText (db : DB) (searchTerm : String) (limit : ℕ) : List Document :=
  (((db.documents.filter (textWhere searchTerm)).mergeSort createdDescBool).take limit)

/-- One value of the `combinedResults` map of `hybridSearch` (lines 166-195). -/
structure HybridResult where
  id : ℕ
  title : String
  content : String
  created_at : ℤ
  similarity : ℝ
  distance : ℝ
  textScore : ℝ
  semanticScore : ℝ
  totalScore : ℝ

/-- The entry written for a text-search hit (lines 168-177): flat
`textScore = textWeight`, zero semantic contribution. -/
def textEntry (textWeight : ℝ) (d : Document) : HybridResult :=
  ⟨d.id, d.title, d.content, d.created_at, 0, 0, textWeight, 0, textWeight⟩

/-- Models `combinedResults.set(doc.id, ...)` for one text result: a JavaScript
`Map` keeps insertion order, so an existing key is overwritten in place and a
new key is appended. -/
def addTextResult (textWeight : ℝ) (m : List HybridResult) (d : Document) : List HybridResult :=
  if m.any fun e => e.id == d.id then
    m.map fun e => if e.id = d.id then textEntry textWeight d else e
  else m ++ [textEntry textWeight d]

/-- The entry written for a semantic result absent from the text results
(lines 188-194): `textScore` stays 0. -/
def semanticEntry (semanticWeight : ℝ) (doc : ScoredResult) : HybridResult :=
  ⟨doc.id, doc.title, doc.content, doc.created_at, doc.similarity, doc.distance,
    0, doc.similarity * semanticWeight, doc.similarity * semanticWeight⟩

/-- Models the `semanticResults.forEach` body (lines 179-195): an entry already
present from text search keeps its `textScore` and gets
`semanticScore = similarity * semanticWeight` and the recomputed total;
otherwise a fresh entry is appended. -/
def addSemanticResult (semanticWeight : ℝ) (m : List HybridResult) (doc : ScoredResult) :
    List HybridResult :=
  if m.any fun e => e.id == doc.id then
    m.map fun e =>
      if e.id = doc.id then
        { e with
          similarity := doc.similarity
          distance := doc.distance
          semanticScore := doc.similarity * semanticWeight
          totalScore := e.textScore + doc.similarity * semanticWeight }
      else e
  else m ++ [semanticEntry semanticWeight doc]

/-- The comparator of line 198, `(a, b) => b.totalScore - a.totalScore`, as the
order it induces. -/
noncomputable def totalDescBool (a b : HybridResult) : Bool :=
  decide (b.totalScore ≤ a.totalScore)

/-- The insertion-ordered `combinedResults` map of `hybridSearch` after both
passes (lines 166-195). -/
def combinedResults (textWeight semanticWeight : ℝ) (textResults : List Document)
    (semanticResults : List ScoredResult) : List HybridResult :=
  semanticResults.foldl (addSemanticResult semanticWeight)
    (textResults.foldl (addTextResult textWeight) [])

/-- Models `hybridSearch(query, queryEmbedding, textWeight, semanticWeight,
limit)` (search.repo.js lines 155-206): text and semantic searches oversampled
to `limit * 2`, merged in one map, stable-sorted descending by `totalScore`,
truncated to `limit`. -/
noncomputable def hybridSearch (db : DB) (query : String) (queryEmbedding : List ℝ)
    (textWeight semanticWeight : ℝ) (limit : ℕ) : Except SearchError (List HybridResult) := do
  let semanticResults ← searchSimilar db queryEmbedding (limit * 2) true none
  pure (((combinedResults textWeight semanticWeight (searchByText db query (limit * 2))
    semanticResults).mergeSort totalDescBool).take limit)

/-- One cluster of `searchWithClustering` (line 217). -/
structure Cluster where
  cluster : ℕ
  documents : List ScoredResult

/-- Models lines 224-225 of `searchWithClustering`:
`JSON.parse(this.db.prepare('SELECT embedding ...').get(id)).embedding`.
`.get` returns the row as an object (or `undefined` when the id is absent),
and `JSON.parse` applied to a non-string stringifies it first — an object
becomes `"[object Object]"` and `undefined` becomes `"undefined"`, neither of
which is valid JSON — so this expression always throws a decode error. -/
def fetchEmbeddingParsedAsRow (_db : DB) (_document_id : ℕ) : Except SearchError (List ℝ) :=
  .error .malformedEmbedding

/-- The inner loop of `searchWithClustering` (lines 220-231): walk the ranked
list, skip processed documents, fetch the seed's and the candidate's stored
embeddings, and absorb the candidate when
`similarity >= similarityThreshold`. -/
noncomputable def absorbLoop (db : DB) (similarityThreshold : ℝ) (seedId : ℕ) :
    List ScoredResult → List ScoredResult → List ℕ →
    Except SearchError (List ScoredResult × List ℕ)
  | [], documents, processed => .ok (documents, processed)
  | otherDoc :: rest, documents, processed =>
    if otherDoc.id ∈ processed then
      absorbLoop db similarityThreshold seedId rest documents processed
    else do
      let docEmbedding ← fetchEmbeddingParsedAsRow db seedId
      let otherEmbedding ← fetchEmbeddingParsedAsRow db otherDoc.id
      let similarity ← cosineSimilarity docEmbedding otherEmbedding
      if similarityThreshold ≤ similarity then
        absorbLoop db similarityThreshold seedId rest (documents ++ [otherDoc])
          (otherDoc.id :: processed)
      else
        absorbLoop db similarityThreshold seedId rest documents processed

/-- The outer loop of `searchWithClustering` (lines 214-235): each unprocessed
ranked document seeds a cluster, the inner loop absorbs similar documents, and
the walk stops as soon as `limit` clusters exist. -/
noncomputable def clusterOuter (db : DB) (similarityThreshold : ℝ) (limit : ℕ)
    (allResults : List ScoredResult) :
    List ScoredResult → List Cluster → ℕ → List ℕ → Except SearchError (List Cluster)
  | [], clusters, _, _ => .ok clusters
  | doc :: rest, clusters, clusterIndex, processed =>
    if doc.id ∈ processed then
      clusterOuter db similarityThreshold limit allResults rest clusters clusterIndex processed
    else do
      let r ← absorbLoop db similarityThreshold doc.id allResults [doc] (doc.id :: processed)
      if limit ≤ (clusters ++ [(⟨clusterIndex, r.1⟩ : Cluster)]).length then
        .ok (clusters ++ [(⟨clusterIndex, r.1⟩ : Cluster)])
      else
        clusterOuter db similarityThreshold limit allResults rest
          (clusters ++ [(⟨clusterIndex, r.1⟩ : Cluster)]) (clusterIndex + 1) r.2

/-- Models `searchWithClustering(queryEmbedding, limit, similarityThreshold)`
(search.repo.js lines 208-242): rank with a 3x oversample, then greedily group
the ranked list. -/
noncomputable def searchWithClustering (db : DB) (queryEmbedding : List ℝ) (limit : ℕ)
    (similarityThreshold : ℝ) : Except SearchError (List Cluster) := do
  let allResults ← searchSimilar db queryEmbedding (limit * 3) true none
  clusterOuter db similarityThreshold limit allResults allResults [] 0 []

/-- The cluster `c` carries its seed as first member: some ranked document
`seed` seeded it (line 217 creates the cluster as `{ documents: [doc] }` and
marks the seed processed), and the member list is exactly that seed followed
by whatever the inner absorption loop of lines 220-231 — run over the ranked
list with the seed's embedding as the comparison target — collected for it. -/
def SeededCluster (db : DB) (th : ℝ) (allResults : List ScoredResult)
    (c : Cluster) : Prop :=
  ∃ seed rest processed₀ processed₁,
    seed ∈ allResults ∧
    c.documents = seed :: rest ∧
    absorbLoop db th seed.id allResults [seed] (seed.id :: processed₀) =
      .ok (seed :: rest, processed₁)

/-- The similarity-range facet counters of `searchWithFacets` (lines 248-253
and 262-271), in band order 0.9-1.0, 0.7-0.9, 0.5-0.7, 0.0-0.5. -/
noncomputable def simRangeCounts (results : List ScoredResult) : ℕ × ℕ × ℕ × ℕ :=
  results.foldl
    (fun c doc =>
      if (0.9 : ℝ) ≤ doc.similarity then (c.1 + 1, c.2.1, c.2.2.1, c.2.2.2)
      else if (0.7 : ℝ) ≤ doc.similarity then (c.1, c.2.1 + 1, c.2.2.1, c.2.2.2)
      else if (0.5 : ℝ) ≤ doc.similarity then (c.1, c.2.1, c.2.2.1 + 1, c.2.2.2)
      else (c.1, c.2.1, c.2.2.1, c.2.2.2 + 1))
    (0, 0, 0, 0)

/-- The time-period facet counters of `searchWithFacets` (lines 255-261 and
272-283), with `now` the call-time clock reading and ages measured in days of
86400000 milliseconds, in band order 24 hours, week, month, older. -/
noncomputable def timePeriodCounts (now : ℤ) (results : List ScoredResult) : ℕ × ℕ × ℕ × ℕ :=
  results.foldl
    (fun c doc =>
      let daysDiff : ℝ := ((now : ℝ) - (doc.created_at : ℝ)) / (1000 * 3600 * 24)
      if daysDiff ≤ 1 then (c.1 + 1, c.2.1, c.2.2.1, c.2.2.2)
      else if daysDiff ≤ 7 then (c.1, c.2.1 + 1, c.2.2.1, c.2.2.2)
      else if daysDiff ≤ 30 then (c.1, c.2.1, c.2.2.1 + 1, c.2.2.2)
      else (c.1, c.2.1, c.2.2.1, c.2.2.2 + 1))
    (0, 0, 0, 0)

/-- The return value of `searchWithFacets` (lines 285-291). -/
structure FacetedResults where
  results : List ScoredResult
  similarityRanges : ℕ × ℕ × ℕ × ℕ
  timePeriods : ℕ × ℕ × ℕ × ℕ

/-- Models `searchWithFacets(queryEmbedding, limit)` (search.repo.js lines
244-297); `now` stands for the `new Date()` call-time clock reading. -/
noncomputable def searchWithFacets (db : DB) (queryEmbedding : List ℝ) (limit : ℕ)
    (now : ℤ) : Except SearchError FacetedResults := do
  let results ← searchSimilar db queryEmbedding limit true none
  pure ⟨results, simRangeCounts results, timePeriodCounts now results⟩

/-- The sum of squares a vector contributes as its `norm` accumulator in
`cosineSimilarity` (lines 24-25). -/
def sumSq (v : List ℝ) : ℝ := v.foldl (fun s x => s + x * x) 0

/-- The magnitude of a single vector, `Math.sqrt` of its sum of squares — the
factor the source multiplies into `magnitude` at line 27. -/
noncomputable def vecMagnitude (v : List ℝ) : ℝ := Real.sqrt (sumSq v)

/-- Example corpus: document 1 with embedding `[1]` and document 2 with the
opposite embedding `[-1]`, so a query `[1]` scores them 1 and -1. -/
def dbOpposite : DB :=
  ⟨[⟨1, "one", "first", 0⟩, ⟨2, "two", "second", 0⟩],
    [⟨1, .vec [1]⟩, ⟨2, .vec [-1]⟩]⟩

/-- Filters carrying only `maxResults = 3`. -/
def filtersMax3 : SearchFilters := ⟨none, none, none, some 3⟩

/-- Filters carrying only `minSimilarity = 0`. -/
def filtersMin0 : SearchFilters := ⟨none, none, some 0, none⟩

/-- Filters carrying only `minSimilarity = 2`. -/
def filtersMin2 : SearchFilters := ⟨none, none, some 2, none⟩

/-- Example corpus for tie-breaking: the store returns document 2 before
document 1, and both share the embedding `[1]`. -/
def dbTieReversed : DB :=
  ⟨[⟨2, "two", "second", 0⟩, ⟨1, "one", "first", 0⟩],
    [⟨2, .vec [1]⟩, ⟨1, .vec [1]⟩]⟩

/-- Example corpus with a single document whose embedding has dimension 2. -/
def dbDim2 : DB := ⟨[⟨1, "one", "first", 0⟩], [⟨1, .vec [1, 2]⟩]⟩

/-- Example corpus with a single document titled "alpha" and embedding `[1]`. -/
def dbAlpha : DB := ⟨[⟨1, "alpha", "body", 0⟩], [⟨1, .vec [1]⟩]⟩

/-- The three-document corpus of the spec's concrete clustering scenario,
stored in ranked order for query `[1, 0]`: embeddings `[1, 0]`,
`[0.7, 0.7]` and `[0, 1]`. -/
def dbScenario : DB :=
  ⟨[⟨1, "one", "first", 0⟩, ⟨3, "three", "third", 0⟩, ⟨2, "two", "second", 0⟩],
    [⟨1, .vec [1, 0]⟩, ⟨3, .vec [0.7, 0.7]⟩, ⟨2, .vec [0, 1]⟩]⟩

/-- Example corpus whose first document has a malformed stored embedding and
whose second document is healthy. -/
def dbMalformed : DB :=
  ⟨[⟨1, "one", "first", 0⟩, ⟨2, "two", "second", 0⟩],
    [⟨1, .malformed⟩, ⟨2, .vec [1]⟩]⟩

/-- Example corpus with one healthy document, embedding `[1]`. -/
def dbSingle : DB := ⟨[⟨1, "one", "first", 0⟩], [⟨1, .vec [1]⟩]⟩

/-- Example corpus for the hybrid tie: the store returns document 2 (title
"zzz") before document 1 (title "apple pie"), both with embedding `[1]`, so a
text query "apple" matches only document 1 while both tie at similarity 1. -/
def dbHybridTie : DB :=
  ⟨[⟨2, "zzz", "second", 0⟩, ⟨1, "apple pie", "first", 0⟩],
    [⟨2, .vec [1]⟩, ⟨1, .vec [1]⟩]⟩

/-- Example corpus of three documents with distinct similarities against the
query `[1]`: document 1 scores 1, document 3 scores 0, document 2 scores -1. -/
def dbDistinct : DB :=
  ⟨[⟨1, "A", "first", 0⟩, ⟨3, "C", "third", 0⟩, ⟨2, "B", "second", 0⟩],
    [⟨1, .vec [1]⟩, ⟨3, .vec [0]⟩, ⟨2, .vec [-1]⟩]⟩

/-- The state invariant of the `combinedResults` map of `hybridSearch` after
the text pass and any prefix `done` of the semantic pass: entry ids are
unique, every entry's `totalScore` is `textScore + semanticScore`, the
`textScore` is the flat `textWeight` exactly for documents found by text
search, and the `semanticScore` is `similarity * semanticWeight` exactly for
documents already processed from the similarity results. -/
def HybridInv (tw sw : ℝ) (textIds : List ℕ) (done : List ScoredResult)
    (m : List HybridResult) : Prop :=
  (m.map fun e => e.id).Nodup ∧
  (∀ e ∈ m, e.totalScore = e.textScore + e.semanticScore) ∧
  (∀ e ∈ m, (e.id ∈ textIds → e.textScore = tw) ∧ (e.id ∉ textIds → e.textScore = 0)) ∧
  (∀ e ∈ m, ∀ d ∈ done, d.id = e.id → e.semanticScore = d.similarity * sw) ∧
  (∀ e ∈ m, e.id ∉ done.map (fun r => r.id) → e.semanticScore = 0) ∧
  (∀ d ∈ done, d.id ∈ m.map fun e => e.id) ∧
  (∀ i ∈ textIds, i ∈ m.map fun e => e.id)

/-! ### Generic lemmas about the `Except` embedding -/

theorem ok_bind {α β : Type} (a : α) (f : α → Except SearchError β) :
    (Except.ok a >>= f : Except SearchError β) = f a := rfl

theorem pure_eq_ok {α : Type} (a : α) : (pure a : Except SearchError α) = .ok a := rfl

theorem error_bind {α β : Type} (e : SearchError) (f : α → Except SearchError β) :
    (Except.error e >>= f : Except SearchError β) = .error e := rfl

theorem mapE_error_of {α β : Type} {f : α → Except SearchError β} {l : List α}
    {e₀ : SearchError}
    (hall : ∀ a ∈ l, f a = .error e₀ ∨ ∃ b, f a = .ok b)
    (hsome : ∃ a ∈ l, f a = .error e₀) :
    mapE f l = .error e₀ := by
  induction l with
  | nil => simp at hsome
  | cons a as ih =>
    rcases hall a (List.mem_cons_self a as) with ha | ⟨b, hb⟩
    · simp [mapE, ha, error_bind]
    · rcases hsome with ⟨x, hx, hex⟩
      rcases List.mem_cons.mp hx with rfl | hxs
      · rw [hex] at hb; cases hb
      · have := ih (fun y hy => hall y (List.mem_cons_of_mem _ hy)) ⟨x, hxs, hex⟩
        simp [mapE, hb, ok_bind, this, error_bind]

theorem mapE_isError {α β : Type} {f : α → Except SearchError β} {l : List α}
    (hsome : ∃ a ∈ l, ∀ b, f a ≠ .ok b) :
    ∃ e, mapE f l = .error e := by
  induction l with
  | nil => simp at hsome
  | cons a as ih =>
    cases hf : f a with
    | error e => exact ⟨e, by simp [mapE, hf, error_bind]⟩
    | ok b =>
      rcases hsome with ⟨x, hx, hex⟩
      rcases List.mem_cons.mp hx with rfl | hxs
      · exact absurd hf (hex b)
      · rcases ih ⟨x, hxs, hex⟩ with ⟨e, he⟩
        exact ⟨e, by simp [mapE, hf, ok_bind, he, error_bind]⟩

theorem mapE_ok_forall₂ {α β : Type} {f : α → Except SearchError β} {l : List α}
    {ys : List β} (h : mapE f l = .ok ys) :
    List.Forall₂ (fun a b => f a = .ok b) l ys := by
  induction l generalizing ys with
  | nil => cases h; exact .nil
  | cons a as ih =>
    cases hf : f a with
    | error e => rw [mapE, hf, error_bind] at h; cases h
    | ok b =>
      rw [mapE, hf, ok_bind] at h
      cases hm : mapE f as with
      | error e => rw [hm, error_bind] at h; cases h
      | ok bs =>
        rw [hm, ok_bind] at h
        cases h
        exact .cons hf (ih hm)

/-! ### Fold lemmas relating the zipped accumulation loop to per-vector sums -/

theorem zip_fold_fst_sq (a : List ℝ) : ∀ (b : List ℝ) (c : ℝ), a.length = b.length →
    (a.zip b).foldl (fun s p => s + p.1 * p.1) c = a.foldl (fun s x => s + x * x) c := by
  induction a with
  | nil => intro b c _; simp
  | cons x xs ih =>
    intro b c h
    cases b with
    | nil => simp at h
    | cons y ys => simpa using ih ys (c + x * x) (by simpa using h)

theorem zip_fold_snd_sq (a : List ℝ) : ∀ (b : List ℝ) (c : ℝ), a.length = b.length →
    (a.zip b).foldl (fun s p => s + p.2 * p.2) c = b.foldl (fun s x => s + x * x) c := by
  induction a with
  | nil =>
    intro b c h
    cases b with
    | nil => simp
    | cons y ys => simp at h
  | cons x xs ih =>
    intro b c h
    cases b with
    | nil => simp at h
    | cons y ys => simpa using ih ys (c + y * y) (by simpa using h)

/-! ### C9: cosine similarity at a zero-magnitude input -/

/-- C9: for every pair of equal-length vectors, `cosineSimilarity` returns
exactly 0 (no error, and not NaN — the division is never taken) whenever
either input vector has magnitude exactly zero. -/
theorem C9_cosine_zero_magnitude (vecA vecB : List ℝ)
    (hlen : vecA.length = vecB.length)
    (hmag : vecMagnitude vecA = 0 ∨ vecMagnitude vecB = 0) :
    cosineSimilarity vecA vecB = .ok 0 := by
  rw [cosineSimilarity, if_neg (by simp [hlen])]
  have hA := zip_fold_fst_sq vecA vecB 0 hlen
  have hB := zip_fold_snd_sq vecA vecB 0 hlen
  have hzero : Real.sqrt ((vecA.zip vecB).foldl (fun s p => s + p.1 * p.1) 0) *
      Real.sqrt ((vecA.zip vecB).foldl (fun s p => s + p.2 * p.2) 0) = 0 := by
    rcases hmag with hm | hm
    · rw [hA, show vecA.foldl (fun s x => s + x * x) 0 = sumSq vecA from rfl]
      rw [vecMagnitude] at hm
      rw [hm, zero_mul]
    · rw [hB, show vecB.foldl (fun s x => s + x * x) 0 = sumSq vecB from rfl]
      rw [vecMagnitude] at hm
      rw [hm, mul_zero]
  simp [hzero]

/-- Witness for C9 at the concrete input `[0]`, `[5]`: the zero vector has
magnitude zero and the similarity comes back 0. -/
theorem C9_witness : cosineSimilarity [0] [5] = Except.ok 0 :=
  C9_cosine_zero_magnitude [0] [5] (by simp)
    (Or.inl (by simp [vecMagnitude, sumSq]))

/-! ### Case analysis of the scoring step -/

theorem cosineSimilarity_mismatch (vecA vecB : List ℝ) (h : vecA.length ≠ vecB.length) :
    cosineSimilarity vecA vecB = .error .dimensionMismatch := by
  rw [cosineSimilarity, if_pos h]

theorem euclideanDistance_mismatch (vecA vecB : List ℝ) (h : vecA.length ≠ vecB.length) :
    euclideanDistance vecA vecB = .error .dimensionMismatch := by
  rw [euclideanDistance, if_pos h]

theorem cosineSimilarity_isOk (vecA vecB : List ℝ) (h : vecA.length = vecB.length) :
    ∃ s, cosineSimilarity vecA vecB = .ok s := by
  rw [cosineSimilarity, if_neg (by simp [h])]
  exact ⟨_, rfl⟩

theorem euclideanDistance_isOk (vecA vecB : List ℝ) (h : vecA.length = vecB.length) :
    ∃ s, euclideanDistance vecA vecB = .ok s := by
  rw [euclideanDistance, if_neg (by simp [h])]
  exact ⟨_, rfl⟩

theorem scoreDoc_malformed (q : List ℝ) (u : Bool) (d : Document) :
    scoreDoc q u d .malformed = .error .malformedEmbedding := by
  rw [scoreDoc, parseEmbedding, error_bind]

theorem scoreDoc_vec_mismatch (q : List ℝ) (u : Bool) (d : Document) (v : List ℝ)
    (h : q.length ≠ v.length) :
    scoreDoc q u d (.vec v) = .error .dimensionMismatch := by
  rw [scoreDoc, parseEmbedding, ok_bind]
  cases u with
  | true => simp [cosineSimilarity_mismatch q v h, error_bind]
  | false => simp [euclideanDistance_mismatch q v h, error_bind]

theorem scoreDoc_vec_isOk (q : List ℝ) (u : Bool) (d : Document) (v : List ℝ)
    (h : q.length = v.length) :
    ∃ b, scoreDoc q u d (.vec v) = .ok b := by
  rw [scoreDoc, parseEmbedding, ok_bind]
  cases u with
  | true =>
    rcases cosineSimilarity_isOk q v h with ⟨s, hs⟩
    exact ⟨⟨d.id, d.title, d.content, d.created_at, s, 1 - s⟩,
      by simp [hs, ok_bind, pure_eq_ok]⟩
  | false =>
    rcases euclideanDistance_isOk q v h with ⟨s, hs⟩
    exact ⟨⟨d.id, d.title, d.content, d.created_at, 1 / (1 + s), s⟩,
      by simp [hs, ok_bind, pure_eq_ok]⟩

/-! ### The outcome of `searchSimilar` from the outcome of the scoring map -/

theorem searchSimilar_error {db : DB} {q : List ℝ} {limit : ℕ} {u : Bool}
    {f : Option SearchFilters} {e : SearchError}
    (h : scoredCandidates db q u f = .error e) :
    searchSimilar db q limit u f = .error e := by
  rw [searchSimilar, h, error_bind]

theorem searchSimilar_ok {db : DB} {q : List ℝ} {limit : ℕ} {u : Bool}
    {f : Option SearchFilters} {scored : List ScoredResult}
    (h : scoredCandidates db q u f = .ok scored) :
    searchSimilar db q limit u f =
      .ok (((applyMinSimilarity f scored).mergeSort simDescBool).take
        (effectiveMax limit f)) := by
  rw [searchSimilar, h, ok_bind, pure_eq_ok]

theorem searchSimilar_ok_elim {db : DB} {q : List ℝ} {limit : ℕ} {u : Bool}
    {f : Option SearchFilters} {res : List ScoredResult}
    (h : searchSimilar db q limit u f = .ok res) :
    ∃ scored, scoredCandidates db q u f = .ok scored ∧
      res = ((applyMinSimilarity f scored).mergeSort simDescBool).take
        (effectiveMax limit f) := by
  cases hs : scoredCandidates db q u f with
  | error e => rw [searchSimilar_error hs] at h; cases h
  | ok scored =>
    rw [searchSimilar_ok hs] at h
    exact ⟨scored, rfl, (Except.ok.injEq _ _).mp h.symm⟩

/-! ### C3: dimension mismatches fail loudly -/

/-- C3: the two vector functions fail with the dimension-mismatch error on any
unequal-length pair, and `searchSimilar` propagates that error (it does not
skip the offending candidate) whenever some candidate's well-formed stored
embedding has a length different from the query vector's. -/
theorem C3_dimension_mismatch (vecA vecB : List ℝ) (db : DB) (queryEmbedding : List ℝ)
    (limit : ℕ) (useCosineSimilarity : Bool) (filters : Option SearchFilters)
    (hab : vecA.length ≠ vecB.length)
    (hwf : ∀ p ∈ candidateRows db filters, ∃ v, p.2 = EmbCol.vec v)
    (hbad : ∃ p ∈ candidateRows db filters, ∃ v, p.2 = EmbCol.vec v ∧
      v.length ≠ queryEmbedding.length) :
    cosineSimilarity vecA vecB = .error .dimensionMismatch ∧
    euclideanDistance vecA vecB = .error .dimensionMismatch ∧
    searchSimilar db queryEmbedding limit useCosineSimilarity filters =
      .error .dimensionMismatch := by
  refine ⟨cosineSimilarity_mismatch _ _ hab, euclideanDistance_mismatch _ _ hab, ?_⟩
  apply searchSimilar_error
  rw [scoredCandidates]
  apply mapE_error_of
  · intro p hp
    rcases hwf p hp with ⟨v, hv⟩
    rw [hv]
    by_cases h : queryEmbedding.length = v.length
    · exact .inr (scoreDoc_vec_isOk _ _ _ _ h)
    · exact .inl (scoreDoc_vec_mismatch _ _ _ _ h)
  · rcases hbad with ⟨p, hp, v, hv, hlen⟩
    exact ⟨p, hp, by rw [hv]; exact scoreDoc_vec_mismatch _ _ _ _ (Ne.symm hlen)⟩

/-- Witness for C3 at concrete inputs: the pair `[1]`, `[1, 2]` and the corpus
`dbDim2`, whose only embedding has dimension 2, against the query `[1]`. -/
theorem C3_witness :
    cosineSimilarity [1] [1, 2] = Except.error .dimensionMismatch ∧
    euclideanDistance [1] [1, 2] = Except.error .dimensionMismatch ∧
    searchSimilar dbDim2 [1] 5 true none = Except.error .dimensionMismatch :=
  C3_dimension_mismatch [1] [1, 2] dbDim2 [1] 5 true none (by simp)
    (by
      intro p hp
      simp [candidateRows, joinRows, dbDim2] at hp
      rw [hp]
      exact ⟨[1, 2], rfl⟩)
    ⟨(⟨1, "one", "first", 0⟩, .vec [1, 2]),
      by simp [candidateRows, joinRows, dbDim2], [1, 2], rfl, by simp⟩

/-! ### The sort comparator is transitive and total, and the output sorted -/

theorem simDescBool_trans : ∀ a b c : ScoredResult,
    simDescBool a b → simDescBool b c → simDescBool a c := by
  intro a b c hab hbc
  simp only [simDescBool, decide_eq_true_eq] at *
  exact le_trans hbc hab

theorem simDescBool_total : ∀ a b : ScoredResult, simDescBool a b || simDescBool b a := by
  intro a b
  simp only [simDescBool, Bool.or_eq_true, decide_eq_true_eq]
  exact le_total _ _

theorem searchSimilar_sorted_length {db : DB} {q : List ℝ} {limit : ℕ} {u : Bool}
    {f : Option SearchFilters} {res : List ScoredResult}
    (h : searchSimilar db q limit u f = .ok res) :
    res.Pairwise (fun a b => b.similarity ≤ a.similarity) ∧
    res.length ≤ effectiveMax limit f := by
  rcases searchSimilar_ok_elim h with ⟨scored, _, rfl⟩
  constructor
  · have hp := List.sorted_mergeSort simDescBool_trans simDescBool_total
      (applyMinSimilarity f scored)
    exact ((hp.sublist (List.take_sublist _ _)).imp fun hb => by
      simpa [simDescBool] using hb)
  · exact List.length_take_le _ _

/-! ### Concrete evaluations of `searchSimilar` on the example corpora -/

theorem scored_dbOpposite (filters : Option SearchFilters)
    (h : candidateRows dbOpposite filters = joinRows dbOpposite) :
    scoredCandidates dbOpposite [1] true filters =
      .ok [⟨1, "one", "first", 0, 1, 0⟩, ⟨2, "two", "second", 0, -1, 2⟩] := by
  rw [scoredCandidates, h]
  simp [joinRows, dbOpposite, mapE, scoreDoc, parseEmbedding, cosineSimilarity,
    ok_bind, pure_eq_ok]
  norm_num

theorem searchSimilar_dbOpposite_max3 :
    searchSimilar dbOpposite [1] 1 true (some filtersMax3) =
      .ok [⟨1, "one", "first", 0, 1, 0⟩, ⟨2, "two", "second", 0, -1, 2⟩] := by
  rw [searchSimilar_ok (scored_dbOpposite (some filtersMax3) (by rfl))]
  rw [show applyMinSimilarity (some filtersMax3)
      [⟨1, "one", "first", 0, 1, 0⟩, ⟨2, "two", "second", 0, -1, 2⟩] =
      [⟨1, "one", "first", 0, 1, 0⟩, ⟨2, "two", "second", 0, -1, 2⟩] from by
    simp [applyMinSimilarity, filtersMax3]]
  rw [List.mergeSort_of_sorted (by simp [List.pairwise_cons, simDescBool])]
  simp [effectiveMax, filtersMax3]

theorem searchSimilar_dbOpposite_min0 :
    searchSimilar dbOpposite [1] 5 true (some filtersMin0) =
      .ok [⟨1, "one", "first", 0, 1, 0⟩, ⟨2, "two", "second", 0, -1, 2⟩] := by
  rw [searchSimilar_ok (scored_dbOpposite (some filtersMin0) (by rfl))]
  rw [show applyMinSimilarity (some filtersMin0)
      [⟨1, "one", "first", 0, 1, 0⟩, ⟨2, "two", "second", 0, -1, 2⟩] =
      [⟨1, "one", "first", 0, 1, 0⟩, ⟨2, "two", "second", 0, -1, 2⟩] from by
    simp [applyMinSimilarity, filtersMin0]]
  rw [List.mergeSort_of_sorted (by simp [List.pairwise_cons, simDescBool])]
  simp [effectiveMax, filtersMin0]

theorem scored_dbSingle :
    scoredCandidates dbSingle [1] true none = .ok [⟨1, "one", "first", 0, 1, 0⟩] := by
  rw [scoredCandidates]
  simp [candidateRows, joinRows, dbSingle, mapE, scoreDoc, parseEmbedding,
    cosineSimilarity, ok_bind, pure_eq_ok]

theorem searchSimilar_dbSingle :
    searchSimilar dbSingle [1] 5 true none = .ok [⟨1, "one", "first", 0, 1, 0⟩] := by
  rw [searchSimilar_ok scored_dbSingle]
  simp [applyMinSimilarity, effectiveMax]

theorem scored_dbTieReversed :
    scoredCandidates dbTieReversed [1] true none =
      .ok [⟨2, "two", "second", 0, 1, 0⟩, ⟨1, "one", "first", 0, 1, 0⟩] := by
  rw [scoredCandidates]
  simp [candidateRows, joinRows, dbTieReversed, mapE, scoreDoc, parseEmbedding,
    cosineSimilarity, ok_bind, pure_eq_ok]

theorem searchSimilar_dbTieReversed :
    searchSimilar dbTieReversed [1] 5 true none =
      .ok [⟨2, "two", "second", 0, 1, 0⟩, ⟨1, "one", "first", 0, 1, 0⟩] := by
  rw [searchSimilar_ok scored_dbTieReversed]
  rw [show applyMinSimilarity none
      [⟨2, "two", "second", 0, 1, 0⟩, ⟨1, "one", "first", 0, 1, 0⟩] =
      [⟨2, "two", "second", 0, 1, 0⟩, ⟨1, "one", "first", 0, 1, 0⟩] from rfl]
  rw [List.mergeSort_of_sorted (by simp [List.pairwise_cons, simDescBool])]
  simp [effectiveMax]

/-! ### C1: the result cap -/

/-- C1 counterexample: over the two-document corpus `dbOpposite` with
`limit = 1` and `filters.maxResults = 3`, `searchSimilar` returns 2 results —
more than `min(limit, maxResults) = 1` and more than `limit` — because
line 100 lets a truthy `maxResults` replace `limit` outright. -/
theorem C1_counterexample :
    Except.map List.length (searchSimilar dbOpposite [1] 1 true (some filtersMax3)) =
      Except.ok 2 := by
  rw [searchSimilar_dbOpposite_max3]
  rfl

/-- C1 amended: `searchSimilar` returns at most `effectiveMax limit filters`
results — that is, at most `filters.maxResults` when that field is present and
nonzero (it overrides `limit` rather than being capped by it), and at most
`limit` otherwise — and the returned sequence is sorted by non-increasing
similarity. -/
theorem C1_cap_and_sorted (db : DB) (q : List ℝ) (limit : ℕ) (u : Bool)
    (filters : Option SearchFilters) (res : List ScoredResult)
    (h : searchSimilar db q limit u filters = .ok res) :
    res.length ≤ effectiveMax limit filters ∧
    res.Pairwise (fun a b => b.similarity ≤ a.similarity) := by
  rcases searchSimilar_sorted_length h with ⟨hs, hl⟩
  exact ⟨hl, hs⟩

/-- Witness for C1 at the concrete corpus `dbSingle`, query `[1]`, limit 5. -/
theorem C1_witness :
    ([⟨1, "one", "first", 0, 1, 0⟩] : List ScoredResult).length ≤ effectiveMax 5 none ∧
    ([⟨1, "one", "first", 0, 1, 0⟩] : List ScoredResult).Pairwise
      (fun a b => b.similarity ≤ a.similarity) :=
  C1_cap_and_sorted dbSingle [1] 5 true none _ searchSimilar_dbSingle

/-! ### C2: tie-breaking order -/

/-- C2 counterexample: over `dbTieReversed` the store returns document 2
before document 1, both scoring similarity 1 against the query `[1]`, and
`searchSimilar` returns them as ids `[2, 1]` — equal-similarity results appear
in store order, not in ascending id order. -/
theorem C2_counterexample :
    Except.map (List.map fun r => (r.id, r.similarity))
      (searchSimilar dbTieReversed [1] 5 true none) =
      Except.ok [(2, 1), (1, 1)] := by
  rw [searchSimilar_dbTieReversed]
  rfl

/-- C2 amended: the ranking is deterministic given the candidate order — the
sort is stable, so results are ordered by non-increasing similarity and any
two candidates `a` before `b` with `b.similarity ≤ a.similarity` (ties
included) keep that relative order in the sorted list, of which the returned
sequence is the truncation — but ties keep the order in which the store
produced the candidates, not ascending document id. -/
theorem C2_stable_ranking (db : DB) (q : List ℝ) (limit : ℕ)
    (filters : Option SearchFilters) (scored res : List ScoredResult)
    (a b : ScoredResult)
    (hs : scoredCandidates db q true filters = .ok scored)
    (h : searchSimilar db q limit true filters = .ok res)
    (hpair : List.Sublist [a, b] (applyMinSimilarity filters scored))
    (hle : b.similarity ≤ a.similarity) :
    res = ((applyMinSimilarity filters scored).mergeSort simDescBool).take
      (effectiveMax limit filters) ∧
    List.Sublist [a, b] ((applyMinSimilarity filters scored).mergeSort simDescBool) := by
  rcases searchSimilar_ok_elim h with ⟨scored', hs', rfl⟩
  rw [hs] at hs'
  cases hs'
  exact ⟨rfl, List.pair_sublist_mergeSort simDescBool_trans simDescBool_total
    (by simpa [simDescBool] using hle) hpair⟩

/-- Witness for C2 at the concrete corpus `dbTieReversed`: the tied pair
stays in store order through the sort. -/
theorem C2_witness :
    ([⟨2, "two", "second", 0, 1, 0⟩, ⟨1, "one", "first", 0, 1, 0⟩] : List ScoredResult) =
      ((applyMinSimilarity none
        [⟨2, "two", "second", 0, 1, 0⟩, ⟨1, "one", "first", 0, 1, 0⟩]).mergeSort
          simDescBool).take (effectiveMax 5 none) ∧
    List.Sublist [(⟨2, "two", "second", 0, 1, 0⟩ : ScoredResult), ⟨1, "one", "first", 0, 1, 0⟩]
      ((applyMinSimilarity none
        [⟨2, "two", "second", 0, 1, 0⟩, ⟨1, "one", "first", 0, 1, 0⟩]).mergeSort
          simDescBool) :=
  C2_stable_ranking dbTieReversed [1] 5 none _ _ _ _ scored_dbTieReversed
    searchSimilar_dbTieReversed (List.Sublist.refl _) (le_refl _)

/-! ### Cauchy-Schwarz for the accumulation loop, and the similarity bound -/

theorem cs_step (d A B x y : ℝ) (h : d ^ 2 ≤ A * B) (hA : 0 ≤ A) (hB : 0 ≤ B) :
    (d + x * y) ^ 2 ≤ (A + x * x) * (B + y * y) := by
  rcases eq_or_lt_of_le hA with hA0 | hApos
  · have hd2 : d ^ 2 = 0 := le_antisymm (by nlinarith) (sq_nonneg d)
    have hd : d = 0 := sq_eq_zero_iff.mp hd2
    subst hd
    nlinarith [mul_nonneg (mul_self_nonneg x) hB]
  · nlinarith [sq_nonneg (x * d - A * y),
      mul_nonneg (add_nonneg hA (mul_self_nonneg x)) (sub_nonneg.mpr h)]

theorem fold_fst_sq_nonneg : ∀ (l : List (ℝ × ℝ)) (A : ℝ), 0 ≤ A →
    0 ≤ l.foldl (fun s p => s + p.1 * p.1) A := by
  intro l
  induction l with
  | nil => intro A hA; simpa using hA
  | cons p ps ih =>
    intro A hA
    rw [List.foldl_cons]
    exact ih (A + p.1 * p.1) (by nlinarith [mul_self_nonneg p.1])

theorem fold_snd_sq_nonneg : ∀ (l : List (ℝ × ℝ)) (B : ℝ), 0 ≤ B →
    0 ≤ l.foldl (fun s p => s + p.2 * p.2) B := by
  intro l
  induction l with
  | nil => intro B hB; simpa using hB
  | cons p ps ih =>
    intro B hB
    rw [List.foldl_cons]
    exact ih (B + p.2 * p.2) (by nlinarith [mul_self_nonneg p.2])

theorem fold_cauchy_schwarz : ∀ (l : List (ℝ × ℝ)) (d A B : ℝ),
    d ^ 2 ≤ A * B → 0 ≤ A → 0 ≤ B →
    (l.foldl (fun s p => s + p.1 * p.2) d) ^ 2 ≤
      (l.foldl (fun s p => s + p.1 * p.1) A) * (l.foldl (fun s p => s + p.2 * p.2) B) := by
  intro l
  induction l with
  | nil => intro d A B h _ _; simpa using h
  | cons p ps ih =>
    intro d A B h hA hB
    rw [List.foldl_cons, List.foldl_cons, List.foldl_cons]
    exact ih (d + p.1 * p.2) (A + p.1 * p.1) (B + p.2 * p.2)
      (cs_step d A B p.1 p.2 h hA hB)
      (by nlinarith [mul_self_nonneg p.1]) (by nlinarith [mul_self_nonneg p.2])

theorem cosineSimilarity_le_one {vecA vecB : List ℝ} {s : ℝ}
    (h : cosineSimilarity vecA vecB = .ok s) : s ≤ 1 := by
  rw [cosineSimilarity] at h
  by_cases hlen : vecA.length ≠ vecB.length
  · rw [if_pos hlen] at h; cases h
  · rw [if_neg hlen] at h
    simp only [Except.ok.injEq] at h
    subst h
    set dot := (vecA.zip vecB).foldl (fun s p => s + p.1 * p.2) 0 with hdot
    set nA := (vecA.zip vecB).foldl (fun s p => s + p.1 * p.1) 0 with hnA
    set nB := (vecA.zip vecB).foldl (fun s p => s + p.2 * p.2) 0 with hnB
    by_cases hm : Real.sqrt nA * Real.sqrt nB = 0
    · rw [if_pos hm]; norm_num
    · rw [if_neg hm]
      have hA0 : 0 ≤ nA := fold_fst_sq_nonneg _ 0 le_rfl
      have hB0 : 0 ≤ nB := fold_snd_sq_nonneg _ 0 le_rfl
      have hcs : dot ^ 2 ≤ nA * nB :=
        fold_cauchy_schwarz (vecA.zip vecB) 0 0 0 (by norm_num) le_rfl le_rfl
      have hmagpos : 0 < Real.sqrt nA * Real.sqrt nB :=
        lt_of_le_of_ne (mul_nonneg (Real.sqrt_nonneg _) (Real.sqrt_nonneg _)) (Ne.symm hm)
      have hdotle : dot ≤ Real.sqrt nA * Real.sqrt nB := by
        have h1 : dot ≤ |dot| := le_abs_self dot
        have h2 : |dot| = Real.sqrt (dot ^ 2) := (Real.sqrt_sq_eq_abs dot).symm
        have h3 : Real.sqrt (dot ^ 2) ≤ Real.sqrt (nA * nB) := Real.sqrt_le_sqrt hcs
        have h4 : Real.sqrt (nA * nB) = Real.sqrt nA * Real.sqrt nB := Real.sqrt_mul hA0 nB
        calc dot ≤ |dot| := h1
          _ = Real.sqrt (dot ^ 2) := h2
          _ ≤ Real.sqrt (nA * nB) := h3
          _ = Real.sqrt nA * Real.sqrt nB := h4
      exact (div_le_one hmagpos).mpr hdotle

theorem euclideanDistance_nonneg {vecA vecB : List ℝ} {s : ℝ}
    (h : euclideanDistance vecA vecB = .ok s) : 0 ≤ s := by
  rw [euclideanDistance] at h
  by_cases hlen : vecA.length ≠ vecB.length
  · rw [if_pos hlen] at h; cases h
  · rw [if_neg hlen] at h
    simp only [Except.ok.injEq] at h
    subst h
    exact Real.sqrt_nonneg _

theorem scoreDoc_sim_le_one {q : List ℝ} {u : Bool} {d : Document} {e : EmbCol}
    {r : ScoredResult} (h : scoreDoc q u d e = .ok r) : r.similarity ≤ 1 := by
  cases e with
  | malformed => rw [scoreDoc_malformed] at h; cases h
  | vec v =>
    rw [scoreDoc, parseEmbedding, ok_bind] at h
    cases u with
    | true =>
      simp only [if_true] at h
      cases hs : cosineSimilarity q v with
      | error e => rw [hs, error_bind] at h; cases h
      | ok s =>
        rw [hs, ok_bind, pure_eq_ok] at h
        cases h
        exact cosineSimilarity_le_one hs
    | false =>
      simp only [Bool.false_eq_true, if_false] at h
      cases hs : euclideanDistance q v with
      | error e => rw [hs, error_bind] at h; cases h
      | ok s =>
        rw [hs, ok_bind, pure_eq_ok] at h
        cases h
        have h0 : 0 ≤ s := euclideanDistance_nonneg hs
        show 1 / (1 + s) ≤ 1
        rw [div_le_one (by linarith)]
        linarith

theorem forall₂_sim_le_one {q : List ℝ} {u : Bool} :
    ∀ {l : List (Document × EmbCol)} {scored : List ScoredResult},
    List.Forall₂ (fun p r => scoreDoc q u p.1 p.2 = .ok r) l scored →
    ∀ r ∈ scored, r.similarity ≤ 1 := by
  intro l scored h
  induction h with
  | nil => simp
  | cons ha _ ih =>
    intro r hr
    rcases List.mem_cons.mp hr with rfl | hr'
    · exact scoreDoc_sim_le_one ha
    · exact ih r hr'

theorem scored_sim_le_one {db : DB} {q : List ℝ} {u : Bool} {f : Option SearchFilters}
    {scored : List ScoredResult} (h : scoredCandidates db q u f = .ok scored) :
    ∀ r ∈ scored, r.similarity ≤ 1 := by
  rw [scoredCandidates] at h
  exact forall₂_sim_le_one (mapE_ok_forall₂ h)

/-! ### C7: the minimum-similarity filter -/

/-- C7 counterexample: with `minSimilarity = 0` present, `searchSimilar` over
`dbOpposite` keeps document 2 whose similarity is -1 < 0 — the truthiness test
of line 95 treats a present-but-zero threshold as absent, so the candidates
are not restricted to those with `similarity >= 0`. -/
theorem C7_counterexample :
    Except.map (List.map fun r => (r.id, r.similarity))
      (searchSimilar dbOpposite [1] 5 true (some filtersMin0)) =
      Except.ok [(1, 1), (2, -1)] := by
  rw [searchSimilar_dbOpposite_min0]
  rfl

/-- C7 amended: when `filters.minSimilarity` is present AND nonzero (a zero
threshold is falsy and is skipped), every returned result has
`similarity ≥ minSimilarity` (the filter reads the `similarity` field, not
`distance`); when no truncation occurs the result is exactly a permutation of
the candidates passing the threshold; and any threshold above 1 — such as the
spec's 1.1, above every attainable similarity in either mode — yields the
empty sequence. -/
theorem C7_min_similarity (db : DB) (q : List ℝ) (limit : ℕ) (u : Bool)
    (f : SearchFilters) (m : ℝ) (scored res : List ScoredResult)
    (hm : f.minSimilarity = some m) (hm0 : m ≠ 0)
    (hs : scoredCandidates db q u (some f) = .ok scored)
    (h : searchSimilar db q limit u (some f) = .ok res) :
    (∀ r ∈ res, m ≤ r.similarity) ∧
    (scored.length ≤ effectiveMax limit (some f) →
      List.Perm res (scored.filter fun r => decide (m ≤ r.similarity))) ∧
    (1 < m → res = []) := by
  rcases searchSimilar_ok_elim h with ⟨scored', hs', rfl⟩
  rw [hs] at hs'
  cases hs'
  have hmin : applyMinSimilarity (some f) scored =
      scored.filter fun r => decide (m ≤ r.similarity) := by
    rw [applyMinSimilarity, hm]
    exact if_pos hm0
  rw [hmin]
  refine ⟨?_, ?_, ?_⟩
  · intro r hr
    have hr2 : r ∈ (scored.filter fun r => decide (m ≤ r.similarity)).mergeSort
        simDescBool := List.mem_of_mem_take hr
    have hr3 : r ∈ scored.filter fun r => decide (m ≤ r.similarity) :=
      List.mem_mergeSort.mp hr2
    simpa using (List.mem_filter.mp hr3).2
  · intro hlen
    have hlen2 : ((scored.filter fun r => decide (m ≤ r.similarity)).mergeSort
        simDescBool).length ≤ effectiveMax limit (some f) := by
      rw [List.length_mergeSort]
      exact le_trans (List.length_filter_le _ _) hlen
    rw [List.take_of_length_le hlen2]
    exact List.mergeSort_perm _ _
  · intro h1
    have hnil : scored.filter (fun r => decide (m ≤ r.similarity)) = [] := by
      rw [List.filter_eq_nil_iff]
      intro r hr
      have := scored_sim_le_one hs r hr
      simp only [decide_eq_true_eq]
      intro hc
      linarith
    rw [hnil]
    simp

theorem scored_dbSingle_min2 :
    scoredCandidates dbSingle [1] true (some filtersMin2) =
      .ok [⟨1, "one", "first", 0, 1, 0⟩] := by
  rw [scoredCandidates]
  simp [candidateRows, joinRows, dbSingle, filtersMin2, mapE, scoreDoc, parseEmbedding,
    cosineSimilarity, ok_bind, pure_eq_ok]

theorem searchSimilar_dbSingle_min2 :
    searchSimilar dbSingle [1] 5 true (some filtersMin2) = .ok [] := by
  rw [searchSimilar_ok scored_dbSingle_min2]
  rw [show applyMinSimilarity (some filtersMin2) [⟨1, "one", "first", 0, 1, 0⟩] =
      ([] : List ScoredResult) from by
    rw [applyMinSimilarity]
    simp [filtersMin2]]
  simp

/-! ### C6: a malformed stored embedding aborts the bulk operations -/

theorem scored_dbMalformed :
    scoredCandidates dbMalformed [1] true none = .error .malformedEmbedding := by
  rw [scoredCandidates]
  simp [candidateRows, joinRows, dbMalformed, mapE, scoreDoc, parseEmbedding,
    error_bind]

theorem searchWithFacets_error {db : DB} {q : List ℝ} {limit : ℕ} {now : ℤ}
    {e : SearchError} (h : searchSimilar db q limit true none = .error e) :
    searchWithFacets db q limit now = .error e := by
  rw [searchWithFacets, h, error_bind]

theorem searchWithClustering_error {db : DB} {q : List ℝ} {limit : ℕ} {th : ℝ}
    {e : SearchError} (h : searchSimilar db q (limit * 3) true none = .error e) :
    searchWithClustering db q limit th = .error e := by
  rw [searchWithClustering, h, error_bind]

/-- C6 counterexample: over `dbMalformed` — document 1 malformed, document 2
healthy — both bulk operations abort with the decode error instead of
returning results that merely exclude document 1. -/
theorem C6_counterexample :
    searchWithFacets dbMalformed [1] 20 0 = .error .malformedEmbedding ∧
    searchWithClustering dbMalformed [1] 10 (1 / 2) = .error .malformedEmbedding :=
  ⟨searchWithFacets_error (searchSimilar_error scored_dbMalformed),
    searchWithClustering_error (searchSimilar_error scored_dbMalformed)⟩

/-- C6 amended: when any candidate row's stored embedding cannot be decoded,
`searchWithClustering` and `searchWithFacets` abort the whole call with an
error (the decode failure thrown inside `searchSimilar`'s map propagates
uncaught); the offending document is never skipped and no partial result is
returned. -/
theorem C6_malformed_aborts (db : DB) (q : List ℝ) (limitC limitF : ℕ)
    (threshold : ℝ) (now : ℤ)
    (hbad : ∃ p ∈ candidateRows db none, p.2 = EmbCol.malformed) :
    (∃ e, searchWithClustering db q limitC threshold = .error e) ∧
    (∃ e, searchWithFacets db q limitF now = .error e) := by
  have herr : ∀ {limit : ℕ}, ∃ e, searchSimilar db q limit true none = .error e := by
    intro limit
    have hsc : ∃ e, scoredCandidates db q true none = .error e := by
      rw [scoredCandidates]
      apply mapE_isError
      rcases hbad with ⟨p, hp, hmal⟩
      refine ⟨p, hp, ?_⟩
      intro b
      rw [hmal, scoreDoc_malformed]
      intro hc
      cases hc
    rcases hsc with ⟨e, he⟩
    exact ⟨e, searchSimilar_error he⟩
  constructor
  · rcases @herr (limitC * 3) with ⟨e, he⟩
    exact ⟨e, searchWithClustering_error he⟩
  · rcases @herr limitF with ⟨e, he⟩
    exact ⟨e, searchWithFacets_error he⟩

/-- Witness for C6 at the concrete corpus `dbMalformed` with clustering limit
7, facet limit 3, threshold 0 and clock reading 5. -/
theorem C6_witness :
    (∃ e, searchWithClustering dbMalformed [1] 7 0 = .error e) ∧
    (∃ e, searchWithFacets dbMalformed [1] 3 5 = .error e) :=
  C6_malformed_aborts dbMalformed [1] 7 3 0 5
    ⟨(⟨1, "one", "first", 0⟩, .malformed),
      by simp [candidateRows, joinRows, dbMalformed], rfl⟩

/-! ### C5: the concrete clustering scenario -/

theorem cos_10_10 : cosineSimilarity [1, 0] [1, 0] = .ok 1 := by
  simp [cosineSimilarity]

theorem cos_10_77 : cosineSimilarity [1, 0] [0.7, 0.7] = .ok (0.7 / Real.sqrt 0.98) := by
  simp [cosineSimilarity]
  norm_num

theorem cos_10_01 : cosineSimilarity [1, 0] [0, 1] = .ok 0 := by
  simp [cosineSimilarity]

theorem scen_sim_nonneg : (0 : ℝ) ≤ 0.7 / Real.sqrt 0.98 :=
  div_nonneg (by norm_num) (Real.sqrt_nonneg _)

theorem scen_sim_le_one : (0.7 : ℝ) / Real.sqrt 0.98 ≤ 1 := by
  rw [div_le_one (Real.sqrt_pos.mpr (by norm_num))]
  rw [show (0.7 : ℝ) = Real.sqrt (0.49) from by
    rw [show (0.49 : ℝ) = 0.7 ^ 2 by norm_num]
    exact (Real.sqrt_sq (by norm_num)).symm]
  exact Real.sqrt_le_sqrt (by norm_num)

theorem scored_dbScenario :
    scoredCandidates dbScenario [1, 0] true none =
      .ok [⟨1, "one", "first", 0, 1, 0⟩,
        ⟨3, "three", "third", 0, 0.7 / Real.sqrt 0.98, 1 - 0.7 / Real.sqrt 0.98⟩,
        ⟨2, "two", "second", 0, 0, 1⟩] := by
  rw [scoredCandidates]
  simp [candidateRows, joinRows, dbScenario, mapE, scoreDoc, parseEmbedding,
    cos_10_10, cos_10_77, cos_10_01, ok_bind, pure_eq_ok]

theorem searchSimilar_dbScenario :
    searchSimilar dbScenario [1, 0] 30 true none =
      .ok [⟨1, "one", "first", 0, 1, 0⟩,
        ⟨3, "three", "third", 0, 0.7 / Real.sqrt 0.98, 1 - 0.7 / Real.sqrt 0.98⟩,
        ⟨2, "two", "second", 0, 0, 1⟩] := by
  rw [searchSimilar_ok scored_dbScenario]
  have happ : applyMinSimilarity none
      [⟨1, "one", "first", 0, 1, 0⟩,
        ⟨3, "three", "third", 0, 0.7 / Real.sqrt 0.98, 1 - 0.7 / Real.sqrt 0.98⟩,
        ⟨2, "two", "second", 0, 0, 1⟩] =
      [(⟨1, "one", "first", 0, 1, 0⟩ : ScoredResult),
        ⟨3, "three", "third", 0, 0.7 / Real.sqrt 0.98, 1 - 0.7 / Real.sqrt 0.98⟩,
        ⟨2, "two", "second", 0, 0, 1⟩] := rfl
  rw [happ]
  rw [List.mergeSort_of_sorted (by
    simp [List.pairwise_cons, simDescBool, scen_sim_le_one, scen_sim_nonneg])]
  rw [show effectiveMax 30 none = 30 from rfl]
  rw [List.take_of_length_le (by simp)]

/-- C5: over the spec's concrete scenario corpus (embeddings `[1,0]`, `[0,1]`,
`[0.7,0.7]`) with query `[1,0]` and threshold 0.99, the ranking step works —
ids 1, 3, 2 in descending similarity — but `searchWithClustering` then throws
instead of returning 3 singleton clusters: lines 224-225 apply `JSON.parse` to
the fetched row object rather than to its `embedding` string, so the very
first absorption check aborts the call. -/
theorem C5_clustering_crashes :
    searchSimilar dbScenario [1, 0] 30 true none =
      .ok [⟨1, "one", "first", 0, 1, 0⟩,
        ⟨3, "three", "third", 0, 0.7 / Real.sqrt 0.98, 1 - 0.7 / Real.sqrt 0.98⟩,
        ⟨2, "two", "second", 0, 0, 1⟩] ∧
    searchWithClustering dbScenario [1, 0] 10 0.99 = .error .malformedEmbedding := by
  refine ⟨searchSimilar_dbScenario, ?_⟩
  rw [searchWithClustering]
  rw [show (10 * 3 : ℕ) = 30 from rfl, searchSimilar_dbScenario, ok_bind]
  simp [clusterOuter, absorbLoop, fetchEmbeddingParsedAsRow, error_bind]

/-! ### C10: structural invariants of the clustering output -/

theorem absorbLoop_spec (db : DB) (th : ℝ) (seedId : ℕ) :
    ∀ (others documents : List ScoredResult) (processed : List ℕ)
      (out : List ScoredResult × List ℕ),
    absorbLoop db th seedId others documents processed = .ok out →
    out.1 = documents ∧ out.2 = processed := by
  intro others
  induction others with
  | nil =>
    intro documents processed out h
    rw [absorbLoop] at h
    cases h
    exact ⟨rfl, rfl⟩
  | cons other rest ih =>
    intro documents processed out h
    rw [absorbLoop] at h
    by_cases hmem : other.id ∈ processed
    · rw [if_pos hmem] at h
      exact ih _ _ _ h
    · rw [if_neg hmem] at h
      rw [fetchEmbeddingParsedAsRow, error_bind] at h
      cases h

theorem clusterOuter_spec (db : DB) (th : ℝ) (limit : ℕ) (allResults : List ScoredResult) :
    ∀ (rest : List ScoredResult) (clusters : List Cluster) (processed : List ℕ)
      (out : List Cluster),
    clusterOuter db th limit allResults rest clusters clusters.length processed = .ok out →
    clusters.length < limit →
    (∀ x ∈ rest, x ∈ allResults) →
    (clusters.map fun c => c.cluster) = List.range clusters.length →
    (clusters.flatMap fun c => c.documents.map fun r => r.id).Nodup →
    (∀ c ∈ clusters, SeededCluster db th allResults c) →
    (∀ i, i ∈ clusters.flatMap (fun c => c.documents.map fun r => r.id) → i ∈ processed) →
    out.length ≤ limit ∧ (out.map fun c => c.cluster) = List.range out.length ∧
      (out.flatMap fun c => c.documents.map fun r => r.id).Nodup ∧
      ∀ c ∈ out, SeededCluster db th allResults c := by
  intro rest
  induction rest with
  | nil =>
    intro clusters processed out h hlt _ hrange hnodup hseeded _
    rw [clusterOuter] at h
    cases h
    exact ⟨le_of_lt hlt, hrange, hnodup, hseeded⟩
  | cons doc rest ih =>
    intro clusters processed out h hlt hwalk hrange hnodup hseeded hsub
    rw [clusterOuter] at h
    by_cases hmem : doc.id ∈ processed
    · rw [if_pos hmem] at h
      exact ih clusters processed out h hlt
        (fun x hx => hwalk x (List.mem_cons_of_mem _ hx)) hrange hnodup hseeded hsub
    · rw [if_neg hmem] at h
      cases habs : absorbLoop db th doc.id allResults [doc] (doc.id :: processed) with
      | error e => rw [habs, error_bind] at h; cases h
      | ok r =>
        rw [habs, ok_bind] at h
        rcases absorbLoop_spec db th doc.id _ _ _ _ habs with ⟨hr1, hr2⟩
        have hrange' : ((clusters ++ [(⟨clusters.length, r.1⟩ : Cluster)]).map fun c => c.cluster) =
            List.range (clusters ++ [(⟨clusters.length, r.1⟩ : Cluster)]).length := by
          simp [hrange, List.range_succ]
        have hnodup' : ((clusters ++ [(⟨clusters.length, r.1⟩ : Cluster)]).flatMap fun c =>
            c.documents.map fun r => r.id).Nodup := by
          rw [List.flatMap_append]
          rw [List.nodup_append]
          refine ⟨hnodup, ?_, ?_⟩
          · simp [hr1]
          · intro i hi
            have hip := hsub i hi
            simp [hr1]
            intro hieq
            rw [hieq] at hip
            exact hmem hip
        have hseedc : SeededCluster db th allResults (⟨clusters.length, r.1⟩ : Cluster) := by
          refine ⟨doc, [], processed, r.2, hwalk doc (List.mem_cons_self doc rest),
            by rw [hr1], ?_⟩
          rw [habs]
          have hr : r = ([doc], r.2) := by
            rw [← hr1]
          rw [hr]
        have hne' : ∀ c ∈ clusters ++ [(⟨clusters.length, r.1⟩ : Cluster)],
            SeededCluster db th allResults c := by
          intro c hc
          rcases List.mem_append.mp hc with hc | hc
          · exact hseeded c hc
          · rcases List.mem_singleton.mp hc with rfl
            exact hseedc
        by_cases hstop : limit ≤ (clusters ++ [(⟨clusters.length, r.1⟩ : Cluster)]).length
        · rw [if_pos hstop] at h
          cases h
          refine ⟨?_, hrange', hnodup', hne'⟩
          simp only [List.length_append, List.length_cons, List.length_nil]
          simp only [List.length_append, List.length_cons, List.length_nil] at hstop
          omega
        · rw [if_neg hstop] at h
          have hlt' : (clusters ++ [(⟨clusters.length, r.1⟩ : Cluster)]).length < limit := by
            omega
          have hsub' : ∀ i, i ∈ (clusters ++ [(⟨clusters.length, r.1⟩ : Cluster)]).flatMap
              (fun c => c.documents.map fun r => r.id) → i ∈ r.2 := by
            intro i hi
            rw [List.flatMap_append] at hi
            rw [hr2]
            rcases List.mem_append.mp hi with hi | hi
            · exact List.mem_cons_of_mem _ (hsub i hi)
            · simp [hr1] at hi
              simp [hi]
          refine ih (clusters ++ [(⟨clusters.length, r.1⟩ : Cluster)]) r.2 out ?_ hlt'
            (fun x hx => hwalk x (List.mem_cons_of_mem _ hx)) hrange' hnodup' hne' hsub'
          have hlen : (clusters ++ [(⟨clusters.length, r.1⟩ : Cluster)]).length =
              clusters.length + 1 := by simp
          rw [hlen]
          exact h

/-- C10: for every query vector, positive limit and threshold, whenever
`searchWithClustering` returns, its clusters are pairwise disjoint (no
document id occurs in two clusters nor twice overall), every cluster is
non-empty with its seed as first member — its member list is exactly a ranked
document that seeded it followed by the documents the inner absorption loop
collected for that seed (`SeededCluster`) — cluster ids are assigned
sequentially from 0, and at most `limit` clusters come back. -/
theorem C10_cluster_invariants (db : DB) (q : List ℝ) (limit : ℕ) (th : ℝ)
    (allResults : List ScoredResult) (clusters : List Cluster) (hpos : 0 < limit)
    (hall : searchSimilar db q (limit * 3) true none = .ok allResults)
    (h : searchWithClustering db q limit th = .ok clusters) :
    clusters.length ≤ limit ∧
    (clusters.map fun c => c.cluster) = List.range clusters.length ∧
    (clusters.flatMap fun c => c.documents.map fun r => r.id).Nodup ∧
    (∀ c ∈ clusters, c.documents ≠ []) ∧
    (∀ c ∈ clusters, SeededCluster db th allResults c) := by
  rw [searchWithClustering, hall, ok_bind] at h
  have hspec := clusterOuter_spec db th limit allResults allResults [] [] clusters h hpos
    (fun x hx => hx) (by simp) (by simp) (by simp) (by simp)
  refine ⟨hspec.1, hspec.2.1, hspec.2.2.1, ?_, hspec.2.2.2⟩
  intro c hc
  rcases hspec.2.2.2 c hc with ⟨seed, rest, p₀, p₁, _, hdocs, _⟩
  rw [hdocs]
  simp

theorem searchSimilar_dbSingle3 :
    searchSimilar dbSingle [1] 3 true none = .ok [⟨1, "one", "first", 0, 1, 0⟩] := by
  rw [searchSimilar_ok (show scoredCandidates dbSingle [1] true none =
      .ok [⟨1, "one", "first", 0, 1, 0⟩] from scored_dbSingle)]
  simp [applyMinSimilarity, effectiveMax]

theorem clustering_dbSingle :
    searchWithClustering dbSingle [1] 1 (1 / 2) =
      .ok [⟨0, [⟨1, "one", "first", 0, 1, 0⟩]⟩] := by
  rw [searchWithClustering]
  rw [show (1 * 3 : ℕ) = 3 from rfl, searchSimilar_dbSingle3, ok_bind]
  simp [clusterOuter, absorbLoop, ok_bind]

/-! ### Identity and uniqueness lemmas feeding the hybrid-fusion proofs -/

theorem totalDescBool_trans : ∀ a b c : HybridResult,
    totalDescBool a b → totalDescBool b c → totalDescBool a c := by
  intro a b c hab hbc
  simp only [totalDescBool, decide_eq_true_eq] at *
  exact le_trans hbc hab

theorem totalDescBool_total : ∀ a b : HybridResult,
    totalDescBool a b || totalDescBool b a := by
  intro a b
  simp only [totalDescBool, Bool.or_eq_true, decide_eq_true_eq]
  exact le_total _ _

theorem applyMinSimilarity_sublist (f : Option SearchFilters) (l : List ScoredResult) :
    List.Sublist (applyMinSimilarity f l) l := by
  rw [applyMinSimilarity.eq_def]
  cases f with
  | none => exact List.Sublist.refl l
  | some g =>
    obtain ⟨sd, ed, ms, mr⟩ := g
    cases ms with
    | none => exact List.Sublist.refl l
    | some m =>
      by_cases hm : m ≠ 0
      · show List.Sublist (if m ≠ 0 then _ else _) l
        rw [if_pos hm]
        exact List.filter_sublist l
      · show List.Sublist (if m ≠ 0 then _ else _) l
        rw [if_neg hm]

theorem scoreDoc_ok_id {q : List ℝ} {u : Bool} {d : Document} {e : EmbCol}
    {r : ScoredResult} (h : scoreDoc q u d e = .ok r) : r.id = d.id := by
  cases e with
  | malformed => rw [scoreDoc_malformed] at h; cases h
  | vec v =>
    rw [scoreDoc, parseEmbedding, ok_bind] at h
    cases u with
    | true =>
      simp only [if_true] at h
      cases hs : cosineSimilarity q v with
      | error e => rw [hs, error_bind] at h; cases h
      | ok s => rw [hs, ok_bind, pure_eq_ok] at h; cases h; rfl
    | false =>
      simp only [Bool.false_eq_true, if_false] at h
      cases hs : euclideanDistance q v with
      | error e => rw [hs, error_bind] at h; cases h
      | ok s => rw [hs, ok_bind, pure_eq_ok] at h; cases h; rfl

theorem forall₂_ids {q : List ℝ} {u : Bool} :
    ∀ {l : List (Document × EmbCol)} {scored : List ScoredResult},
    List.Forall₂ (fun p r => scoreDoc q u p.1 p.2 = .ok r) l scored →
    scored.map (fun r => r.id) = l.map (fun p => p.1.id) := by
  intro l scored h
  induction h with
  | nil => rfl
  | cons ha _ ih => simp [scoreDoc_ok_id ha, ih]

theorem scored_ids {db : DB} {q : List ℝ} {u : Bool} {f : Option SearchFilters}
    {scored : List ScoredResult} (h : scoredCandidates db q u f = .ok scored) :
    scored.map (fun r => r.id) = (candidateRows db f).map (fun p => p.1.id) := by
  rw [scoredCandidates] at h
  exact forall₂_ids (mapE_ok_forall₂ h)

theorem searchSimilar_ids_nodup {db : DB} {q : List ℝ} {limit : ℕ} {u : Bool}
    {f : Option SearchFilters} {res : List ScoredResult}
    (hnd : ((candidateRows db f).map fun p => p.1.id).Nodup)
    (h : searchSimilar db q limit u f = .ok res) :
    (res.map fun r => r.id).Nodup := by
  rcases searchSimilar_ok_elim h with ⟨scored, hs, rfl⟩
  have h1 : (scored.map fun r => r.id).Nodup := by rw [scored_ids hs]; exact hnd
  have h2 : ((applyMinSimilarity f scored).map fun r => r.id).Nodup :=
    h1.sublist ((applyMinSimilarity_sublist f scored).map _)
  have h3 : (((applyMinSimilarity f scored).mergeSort simDescBool).map
      fun r => r.id).Nodup :=
    (((List.mergeSort_perm (applyMinSimilarity f scored) simDescBool).map
      (fun r => r.id)).nodup_iff).mpr h2
  exact h3.sublist ((List.take_sublist _ _).map _)

theorem searchByText_ids_nodup {db : DB} {term : String} {limit : ℕ}
    (hnd : (db.documents.map fun d => d.id).Nodup) :
    ((searchByText db term limit).map fun d => d.id).Nodup := by
  rw [searchByText]
  have h1 : ((db.documents.filter (textWhere term)).map fun d => d.id).Nodup :=
    hnd.sublist ((List.filter_sublist _).map _)
  have h2 : (((db.documents.filter (textWhere term)).mergeSort
      createdDescBool).map fun d => d.id).Nodup :=
    (((List.mergeSort_perm _ createdDescBool).map (fun d => d.id)).nodup_iff).mpr h1
  exact h2.sublist ((List.take_sublist _ _).map _)

/-- Witness for C10 at the concrete corpus `dbSingle` with `limit = 1` and
threshold one half: one cluster labelled 0 comes back, seeded by (and holding
exactly) the single ranked document. -/
theorem C10_witness :
    ([⟨0, [⟨1, "one", "first", 0, 1, 0⟩]⟩] : List Cluster).length ≤ 1 ∧
    (([⟨0, [⟨1, "one", "first", 0, 1, 0⟩]⟩] : List Cluster).map fun c => c.cluster) =
      List.range ([⟨0, [⟨1, "one", "first", 0, 1, 0⟩]⟩] : List Cluster).length ∧
    (([⟨0, [⟨1, "one", "first", 0, 1, 0⟩]⟩] : List Cluster).flatMap fun c =>
      c.documents.map fun r => r.id).Nodup ∧
    (∀ c ∈ ([⟨0, [⟨1, "one", "first", 0, 1, 0⟩]⟩] : List Cluster), c.documents ≠ []) ∧
    (∀ c ∈ ([⟨0, [⟨1, "one", "first", 0, 1, 0⟩]⟩] : List Cluster),
      SeededCluster dbSingle (1 / 2) [⟨1, "one", "first", 0, 1, 0⟩] c) :=
  C10_cluster_invariants dbSingle [1] 1 (1 / 2) _ _ (by norm_num)
    (by rw [show (1 * 3 : ℕ) = 3 from rfl]; exact searchSimilar_dbSingle3)
    clustering_dbSingle

/-- Witness for C7 at the concrete corpus `dbSingle` with threshold
`minSimilarity = 2 > 1`: the result is empty. -/
theorem C7_witness :
    (∀ r ∈ ([] : List ScoredResult), (2 : ℝ) ≤ r.similarity) ∧
    (([⟨1, "one", "first", 0, 1, 0⟩] : List ScoredResult).length ≤
        effectiveMax 5 (some filtersMin2) →
      List.Perm ([] : List ScoredResult)
        (([⟨1, "one", "first", 0, 1, 0⟩] : List ScoredResult).filter
          fun r => decide ((2 : ℝ) ≤ r.similarity))) ∧
    ((1 : ℝ) < 2 → ([] : List ScoredResult) = []) :=
  C7_min_similarity dbSingle [1] 5 true filtersMin2 2 _ _ rfl (by norm_num)
    scored_dbSingle_min2 searchSimilar_dbSingle_min2

/-! ### The hybrid map construction -/

theorem foldl_addText (tw : ℝ) :
    ∀ (l : List Document) (acc : List HybridResult),
    (∀ d ∈ l, ∀ e ∈ acc, e.id ≠ d.id) → (l.map (fun d => d.id)).Nodup →
    l.foldl (addTextResult tw) acc = acc ++ l.map (textEntry tw) := by
  intro l
  induction l with
  | nil => intro acc _ _; simp
  | cons d ds ih =>
    intro acc hdis hnd
    rw [List.foldl_cons]
    have hnone : ¬ (acc.any fun e => e.id == d.id) = true := by
      simp only [List.any_eq_true, beq_iff_eq, not_exists, not_and]
      intro e he
      exact hdis d (List.mem_cons_self d ds) e he
    rw [show addTextResult tw acc d = acc ++ [textEntry tw d] from by
      rw [addTextResult, if_neg hnone]]
    have hnd' : (ds.map (fun d => d.id)).Nodup :=
      (List.nodup_cons.mp (by simpa using hnd)).2
    have hhead : d.id ∉ ds.map (fun d => d.id) :=
      (List.nodup_cons.mp (by simpa using hnd)).1
    have hdis' : ∀ d' ∈ ds, ∀ e ∈ acc ++ [textEntry tw d], e.id ≠ d'.id := by
      intro d' hd' e he
      rcases List.mem_append.mp he with he | he
      · exact hdis d' (List.mem_cons_of_mem _ hd') e he
      · rcases List.mem_singleton.mp he with rfl
        show d.id ≠ d'.id
        intro hc
        exact hhead (hc ▸ List.mem_map_of_mem _ hd')
    rw [ih (acc ++ [textEntry tw d]) hdis' hnd']
    simp

theorem map_preserves_ids (f : HybridResult → HybridResult)
    (hf : ∀ e, (f e).id = e.id) (m : List HybridResult) :
    ((m.map f).map fun e => e.id) = m.map fun e => e.id := by
  rw [List.map_map]
  exact List.map_congr_left fun e _ => hf e

theorem addSemantic_inv (tw sw : ℝ) (textIds : List ℕ) (done : List ScoredResult)
    (m : List HybridResult) (d : ScoredResult)
    (hInv : HybridInv tw sw textIds done m)
    (hdid : d.id ∉ done.map fun r => r.id) :
    HybridInv tw sw textIds (done ++ [d]) (addSemanticResult sw m d) := by
  obtain ⟨h1, h2, h3, h4, h5, h6, h7⟩ := hInv
  rw [addSemanticResult]
  by_cases hmem : (m.any fun e => e.id == d.id) = true
  · rw [if_pos hmem]
    have hupd : ∀ e : HybridResult,
        ((if e.id = d.id then
          { e with
            similarity := d.similarity
            distance := d.distance
            semanticScore := d.similarity * sw
            totalScore := e.textScore + d.similarity * sw }
        else e) : HybridResult).id = e.id := by
      intro e
      by_cases he2 : e.id = d.id
      · simp [he2]
      · simp [he2]
    have hids := map_preserves_ids _ hupd m
    refine ⟨by rw [hids]; exact h1, ?_, ?_, ?_, ?_, ?_, by intro i hi; rw [hids]; exact h7 i hi⟩
    · intro e' he'
      rcases List.mem_map.mp he' with ⟨e, he, rfl⟩
      by_cases he2 : e.id = d.id
      · simp [he2]
      · simp only [he2, if_false]
        exact h2 e he
    · intro e' he'
      rcases List.mem_map.mp he' with ⟨e, he, rfl⟩
      by_cases he2 : e.id = d.id
      · simpa [he2] using h3 e he
      · simpa [he2] using h3 e he
    · intro e' he'
      rcases List.mem_map.mp he' with ⟨e, he, rfl⟩
      intro d' hd' hd'e
      by_cases he2 : e.id = d.id
      · simp only [he2, if_true] at hd'e ⊢
        rcases List.mem_append.mp hd' with hdone | hone
        · exfalso
          apply hdid
          have hde : d'.id = d.id := by simpa using hd'e
          rw [← hde]
          exact List.mem_map_of_mem _ hdone
        · rcases List.mem_singleton.mp hone with rfl
          simp
      · simp only [he2, if_false] at hd'e ⊢
        rcases List.mem_append.mp hd' with hdone | hone
        · exact h4 e he d' hdone hd'e
        · rcases List.mem_singleton.mp hone with rfl
          exact absurd hd'e.symm he2
    · intro e' he'
      rcases List.mem_map.mp he' with ⟨e, he, rfl⟩
      intro hnin
      by_cases he2 : e.id = d.id
      · exfalso
        apply hnin
        simp only [he2, if_true]
        rw [List.map_append]
        exact List.mem_append.mpr (Or.inr (by simp))
      · simp only [he2, if_false] at hnin ⊢
        refine h5 e he ?_
        intro hc
        apply hnin
        rw [List.map_append]
        exact List.mem_append.mpr (Or.inl hc)
    · intro d' hd'
      rw [hids]
      rcases List.mem_append.mp hd' with hd' | hd'
      · exact h6 d' hd'
      · rcases List.mem_singleton.mp hd' with rfl
        rcases List.any_eq_true.mp hmem with ⟨e, he, hee⟩
        exact List.mem_map.mpr ⟨e, he, by simpa using hee⟩
  · rw [if_neg hmem]
    have hd_nin : d.id ∉ m.map fun e => e.id := by
      intro hc
      apply hmem
      rcases List.mem_map.mp hc with ⟨e, he, hee⟩
      exact List.any_eq_true.mpr ⟨e, he, by simpa using hee⟩
    refine ⟨?_, ?_, ?_, ?_, ?_, ?_, ?_⟩
    · rw [List.map_append]
      rw [List.nodup_append]
      refine ⟨h1, by simp [semanticEntry], ?_⟩
      intro i hi
      simp only [List.map_cons, List.map_nil, List.mem_singleton, semanticEntry]
      intro hc
      rw [hc] at hi
      exact hd_nin hi
    · intro e' he'
      rcases List.mem_append.mp he' with he' | he'
      · exact h2 e' he'
      · rcases List.mem_singleton.mp he' with rfl
        simp [semanticEntry]
    · intro e' he'
      rcases List.mem_append.mp he' with he' | he'
      · exact h3 e' he'
      · rcases List.mem_singleton.mp he' with rfl
        constructor
        · intro hc
          exfalso
          exact hd_nin (h7 _ (by simpa [semanticEntry] using hc))
        · intro _
          simp [semanticEntry]
    · intro e' he'
      rcases List.mem_append.mp he' with hm | hs
      · intro d' hd' hd'e
        rcases List.mem_append.mp hd' with hdone | hone
        · exact h4 e' hm d' hdone hd'e
        · rcases List.mem_singleton.mp hone with rfl
          exfalso
          have hmm : e'.id ∈ m.map fun e => e.id := List.mem_map_of_mem _ hm
          rw [← hd'e] at hmm
          exact hd_nin hmm
      · rcases List.mem_singleton.mp hs with rfl
        intro d' hd' hd'e
        rcases List.mem_append.mp hd' with hdone | hone
        · exfalso
          have hde : d'.id = d.id := by simpa [semanticEntry] using hd'e
          apply hdid
          rw [← hde]
          exact List.mem_map_of_mem _ hdone
        · rcases List.mem_singleton.mp hone with rfl
          simp [semanticEntry]
    · intro e' he'
      rcases List.mem_append.mp he' with he' | he'
      · intro hnin
        refine h5 e' he' ?_
        intro hc
        apply hnin
        rw [List.map_append]
        exact List.mem_append.mpr (Or.inl hc)
      · rcases List.mem_singleton.mp he' with rfl
        intro hnin
        exfalso
        apply hnin
        rw [List.map_append]
        exact List.mem_append.mpr (Or.inr (by simp [semanticEntry]))
    · intro d' hd'
      rw [List.map_append]
      rcases List.mem_append.mp hd' with hd' | hd'
      · exact List.mem_append.mpr (Or.inl (h6 d' hd'))
      · rcases List.mem_singleton.mp hd' with rfl
        exact List.mem_append.mpr (Or.inr (by simp [semanticEntry]))
    · intro i hi
      rw [List.map_append]
      exact List.mem_append.mpr (Or.inl (h7 i hi))

theorem foldl_addSemantic_inv (tw sw : ℝ) (textIds : List ℕ) :
    ∀ (sems done : List ScoredResult) (m : List HybridResult),
    HybridInv tw sw textIds done m →
    ((done ++ sems).map (fun r => r.id)).Nodup →
    HybridInv tw sw textIds (done ++ sems) (sems.foldl (addSemanticResult sw) m) := by
  intro sems
  induction sems with
  | nil =>
    intro done m h _
    simpa using h
  | cons d rest ih =>
    intro done m hInv hnd
    rw [List.foldl_cons]
    have hdid : d.id ∉ done.map fun r => r.id := by
      intro hc
      have hnd2 : ((done.map fun r => r.id) ++
          ((d :: rest).map fun r => r.id)).Nodup := by
        simpa [List.map_append] using hnd
      rcases List.nodup_append.mp hnd2 with ⟨_, _, hdisj⟩
      exact hdisj hc (by simp)
    have hstep := addSemantic_inv tw sw textIds done m d hInv hdid
    have hres := ih (done ++ [d]) (addSemanticResult sw m d) hstep
      (by simpa using hnd)
    simpa using hres

theorem combinedResults_inv (tw sw : ℝ) (textResults : List Document)
    (semanticResults : List ScoredResult)
    (htext : (textResults.map fun d => d.id).Nodup)
    (hsem : (semanticResults.map fun r => r.id).Nodup) :
    HybridInv tw sw (textResults.map fun d => d.id) semanticResults
      (combinedResults tw sw textResults semanticResults) := by
  rw [combinedResults]
  rw [foldl_addText tw textResults [] (by simp) htext]
  rw [List.nil_append]
  have hInv0 : HybridInv tw sw (textResults.map fun d => d.id) []
      (textResults.map (textEntry tw)) := by
    refine ⟨?_, ?_, ?_, ?_, ?_, ?_, ?_⟩
    · rw [List.map_map]
      have : ((fun e : HybridResult => e.id) ∘ textEntry tw) = fun d => d.id := by
        funext d
        simp [textEntry]
      rw [this]
      exact htext
    · intro e he
      rcases List.mem_map.mp he with ⟨d, _, rfl⟩
      simp [textEntry]
    · intro e he
      rcases List.mem_map.mp he with ⟨d, hd, rfl⟩
      constructor
      · intro _
        simp [textEntry]
      · intro hc
        exfalso
        apply hc
        exact List.mem_map.mpr ⟨d, hd, by simp [textEntry]⟩
    · intro e _ d' hd'
      simp at hd'
    · intro e _ _
      rcases List.mem_map.mp (by assumption : e ∈ textResults.map (textEntry tw))
        with ⟨d, _, rfl⟩
      simp [textEntry]
    · intro d' hd'
      simp at hd'
    · intro i hi
      rcases List.mem_map.mp hi with ⟨d, hd, rfl⟩
      exact List.mem_map.mpr ⟨textEntry tw d, List.mem_map_of_mem _ hd, by simp [textEntry]⟩
  have := foldl_addSemantic_inv tw sw (textResults.map fun d => d.id)
    semanticResults [] (textResults.map (textEntry tw)) hInv0 (by simpa using hsem)
  simpa using this

theorem hybridSearch_ok_elim {db : DB} {query : String} {qe : List ℝ} {tw sw : ℝ}
    {limit : ℕ} {semRes : List ScoredResult} {res : List HybridResult}
    (hsem : searchSimilar db qe (limit * 2) true none = .ok semRes)
    (h : hybridSearch db query qe tw sw limit = .ok res) :
    res = ((combinedResults tw sw (searchByText db query (limit * 2))
      semRes).mergeSort totalDescBool).take limit := by
  rw [hybridSearch, hsem, ok_bind, pure_eq_ok] at h
  exact ((Except.ok.injEq _ _).mp h).symm

/-! ### C4: hybrid score assignment -/

/-- C4: `hybridSearch` gives every document found by text search the flat
`textScore = textWeight`, every document found by similarity search
`semanticScore = similarity * semanticWeight` (with `textScore` 0 when it was
not a text hit), keeps `totalScore = textScore + semanticScore` on every
entry, and returns entries sorted descending by `totalScore`, truncated to
`limit` — stated for stores whose candidate and document ids are unique, as a
SQL primary key guarantees. -/
theorem C4_hybrid_scores (db : DB) (query : String) (qe : List ℝ) (tw sw : ℝ)
    (limit : ℕ) (semRes : List ScoredResult) (res : List HybridResult)
    (hcand : ((candidateRows db none).map fun p => p.1.id).Nodup)
    (hdocs : (db.documents.map fun d => d.id).Nodup)
    (hsem : searchSimilar db qe (limit * 2) true none = .ok semRes)
    (h : hybridSearch db query qe tw sw limit = .ok res) :
    res.Pairwise (fun a b => b.totalScore ≤ a.totalScore) ∧
    res.length ≤ limit ∧
    (∀ e ∈ res, e.totalScore = e.textScore + e.semanticScore) ∧
    (∀ e ∈ res,
      (e.id ∈ (searchByText db query (limit * 2)).map (fun d => d.id) →
        e.textScore = tw) ∧
      (e.id ∉ (searchByText db query (limit * 2)).map (fun d => d.id) →
        e.textScore = 0)) ∧
    (∀ e ∈ res, ∀ d ∈ semRes, d.id = e.id → e.semanticScore = d.similarity * sw) ∧
    (∀ e ∈ res, e.id ∉ semRes.map (fun r => r.id) → e.semanticScore = 0) := by
  have hres := hybridSearch_ok_elim hsem h
  subst hres
  have hsemnd : (semRes.map fun r => r.id).Nodup := searchSimilar_ids_nodup hcand hsem
  have htextnd := @searchByText_ids_nodup db query (limit * 2) hdocs
  obtain ⟨h1, h2, h3, h4, h5, h6, h7⟩ :=
    combinedResults_inv tw sw (searchByText db query (limit * 2)) semRes htextnd hsemnd
  have hmem : ∀ e ∈ ((combinedResults tw sw (searchByText db query (limit * 2))
      semRes).mergeSort totalDescBool).take limit,
      e ∈ combinedResults tw sw (searchByText db query (limit * 2)) semRes :=
    fun e he => List.mem_mergeSort.mp (List.mem_of_mem_take he)
  refine ⟨?_, List.length_take_le _ _, ?_, ?_, ?_, ?_⟩
  · have hp := List.sorted_mergeSort totalDescBool_trans totalDescBool_total
      (combinedResults tw sw (searchByText db query (limit * 2)) semRes)
    exact (hp.sublist (List.take_sublist _ _)).imp fun hb => by
      simpa [totalDescBool] using hb
  · intro e he
    exact h2 e (hmem e he)
  · intro e he
    exact h3 e (hmem e he)
  · intro e he
    exact h4 e (hmem e he)
  · intro e he
    exact h5 e (hmem e he)

theorem searchByText_dbAlpha :
    searchByText dbAlpha "a" 10 = [⟨1, "alpha", "body", 0⟩] := by
  rw [searchByText]
  rw [show dbAlpha.documents.filter (textWhere "a") = [⟨1, "alpha", "body", 0⟩] from rfl]
  rw [List.mergeSort_singleton]
  rfl

theorem scored_dbAlpha :
    scoredCandidates dbAlpha [1] true none = .ok [⟨1, "alpha", "body", 0, 1, 0⟩] := by
  rw [scoredCandidates]
  simp [candidateRows, joinRows, dbAlpha, mapE, scoreDoc, parseEmbedding,
    cosineSimilarity, ok_bind, pure_eq_ok]

theorem searchSimilar_dbAlpha :
    searchSimilar dbAlpha [1] 10 true none = .ok [⟨1, "alpha", "body", 0, 1, 0⟩] := by
  rw [searchSimilar_ok scored_dbAlpha]
  simp [applyMinSimilarity, effectiveMax]

theorem hybrid_dbAlpha :
    hybridSearch dbAlpha "a" [1] 2 3 5 = .ok [⟨1, "alpha", "body", 0, 1, 0, 2, 3, 5⟩] := by
  rw [hybridSearch, show (5 * 2 : ℕ) = 10 from rfl, searchSimilar_dbAlpha, ok_bind,
    pure_eq_ok, searchByText_dbAlpha]
  rw [show combinedResults 2 3 [⟨1, "alpha", "body", 0⟩] [⟨1, "alpha", "body", 0, 1, 0⟩] =
      [⟨1, "alpha", "body", 0, 1, 0, 2, 3, 5⟩] from by
    rw [combinedResults]
    simp [addTextResult, addSemanticResult, textEntry]
    norm_num]
  rw [List.mergeSort_singleton]
  rfl

/-- Witness for C4 at the concrete corpus `dbAlpha` (one document titled
"alpha"), text query "a", vector query `[1]`, weights 2 and 3: the single
entry carries textScore 2, semanticScore 3 and totalScore 5. -/
theorem C4_witness :
    ([⟨1, "alpha", "body", 0, 1, 0, 2, 3, 5⟩] : List HybridResult).Pairwise
      (fun a b => b.totalScore ≤ a.totalScore) ∧
    ([⟨1, "alpha", "body", 0, 1, 0, 2, 3, 5⟩] : List HybridResult).length ≤ 5 ∧
    (∀ e ∈ ([⟨1, "alpha", "body", 0, 1, 0, 2, 3, 5⟩] : List HybridResult),
      e.totalScore = e.textScore + e.semanticScore) ∧
    (∀ e ∈ ([⟨1, "alpha", "body", 0, 1, 0, 2, 3, 5⟩] : List HybridResult),
      (e.id ∈ (searchByText dbAlpha "a" (5 * 2)).map (fun d => d.id) →
        e.textScore = 2) ∧
      (e.id ∉ (searchByText dbAlpha "a" (5 * 2)).map (fun d => d.id) →
        e.textScore = 0)) ∧
    (∀ e ∈ ([⟨1, "alpha", "body", 0, 1, 0, 2, 3, 5⟩] : List HybridResult),
      ∀ d ∈ ([⟨1, "alpha", "body", 0, 1, 0⟩] : List ScoredResult), d.id = e.id →
        e.semanticScore = d.similarity * 3) ∧
    (∀ e ∈ ([⟨1, "alpha", "body", 0, 1, 0, 2, 3, 5⟩] : List HybridResult),
      e.id ∉ ([⟨1, "alpha", "body", 0, 1, 0⟩] : List ScoredResult).map (fun r => r.id) →
        e.semanticScore = 0) :=
  C4_hybrid_scores dbAlpha "a" [1] 2 3 5 _ _
    (by simp [candidateRows, joinRows, dbAlpha])
    (by simp [dbAlpha])
    (by rw [show (5 * 2 : ℕ) = 10 from rfl]; exact searchSimilar_dbAlpha)
    hybrid_dbAlpha

/-! ### C8: hybrid search with pure semantic weights -/

theorem searchSimilar_sim_le_one {db : DB} {q : List ℝ} {limit : ℕ} {u : Bool}
    {f : Option SearchFilters} {res : List ScoredResult}
    (h : searchSimilar db q limit u f = .ok res) :
    ∀ r ∈ res, r.similarity ≤ 1 := by
  rcases searchSimilar_ok_elim h with ⟨scored, hs, rfl⟩
  intro r hr
  have hr2 : r ∈ applyMinSimilarity f scored :=
    List.mem_mergeSort.mp (List.mem_of_mem_take hr)
  exact scored_sim_le_one hs r ((applyMinSimilarity_sublist f scored).mem hr2)

theorem head?_take_pos {α : Type} (l : List α) (n : ℕ) (h : 0 < n) :
    (l.take n).head? = l.head? := by
  cases l with
  | nil => simp
  | cons a as =>
    cases n with
    | zero => exact absurd h (by simp)
    | succ n => simp

/-- C8 amended: with `textWeight = 0` and `semanticWeight = 1`, every hybrid
entry matching a similarity result carries `totalScore` equal to that result's
similarity, and documents with strictly distinct similarities keep
`searchSimilar`'s relative order in the hybrid ranking; ties, however, can be
reordered (text-matched documents enter the map first and the stable sort
keeps them ahead). In the concrete scenario where the query vector matches
document A exactly and every other document scores strictly below 1,
`hybridSearch(query, A_vector, 0, 1, limit)` ranks A first with
`totalScore = 1`. -/
theorem C8_semantic_ranking (db : DB) (query : String) (qe : List ℝ) (limit : ℕ)
    (semRes : List ScoredResult) (res : List HybridResult)
    (hcand : ((candidateRows db none).map fun p => p.1.id).Nodup)
    (hdocs : (db.documents.map fun d => d.id).Nodup)
    (hsem : searchSimilar db qe (limit * 2) true none = .ok semRes)
    (h : hybridSearch db query qe 0 1 limit = .ok res) :
    (∀ e ∈ res, ∀ d ∈ semRes, d.id = e.id → e.totalScore = d.similarity) ∧
    (∀ d ∈ semRes, ∀ d' ∈ semRes, ∀ e ∈ res, ∀ e' ∈ res, e.id = d.id → e'.id = d'.id →
      d'.similarity < d.similarity → ¬ List.Sublist [e', e] res) ∧
    (∀ a ∈ semRes, a.similarity = 1 →
      (∀ d ∈ semRes, d.id ≠ a.id → d.similarity < 1) → 0 < limit →
      ∃ e, res.head? = some e ∧ e.id = a.id ∧ e.totalScore = 1) := by
  have hres := hybridSearch_ok_elim hsem h
  subst hres
  have hsemnd : (semRes.map fun r => r.id).Nodup := searchSimilar_ids_nodup hcand hsem
  have htextnd := @searchByText_ids_nodup db query (limit * 2) hdocs
  obtain ⟨h1, h2, h3, h4, h5, h6, h7⟩ :=
    combinedResults_inv 0 1 (searchByText db query (limit * 2)) semRes htextnd hsemnd
  have hsims := searchSimilar_sim_le_one hsem
  have hTot : ∀ e ∈ combinedResults 0 1 (searchByText db query (limit * 2)) semRes,
      ∀ d ∈ semRes, d.id = e.id → e.totalScore = d.similarity := by
    intro e he d hd hde
    have htext0 : e.textScore = 0 := by
      rcases h3 e he with ⟨ht1, ht2⟩
      by_cases hin : e.id ∈ (searchByText db query (limit * 2)).map fun d => d.id
      · exact ht1 hin
      · exact ht2 hin
    have := h4 e he d hd hde
    rw [h2 e he, htext0, this]
    ring
  have hBound : ∀ e ∈ combinedResults 0 1 (searchByText db query (limit * 2)) semRes,
      e.totalScore ≤ 1 := by
    intro e he
    by_cases hin : e.id ∈ semRes.map fun r => r.id
    · rcases List.mem_map.mp hin with ⟨d, hd, hde⟩
      rw [hTot e he d hd hde]
      exact hsims d hd
    · have hs0 := h5 e he hin
      have htext0 : e.textScore = 0 := by
        rcases h3 e he with ⟨ht1, ht2⟩
        by_cases hin2 : e.id ∈ (searchByText db query (limit * 2)).map fun d => d.id
        · exact ht1 hin2
        · exact ht2 hin2
      rw [h2 e he, hs0, htext0]
      norm_num
  have hmemres : ∀ e ∈ ((combinedResults 0 1 (searchByText db query (limit * 2))
      semRes).mergeSort totalDescBool).take limit,
      e ∈ combinedResults 0 1 (searchByText db query (limit * 2)) semRes :=
    fun e he => List.mem_mergeSort.mp (List.mem_of_mem_take he)
  have hsorted : (((combinedResults 0 1 (searchByText db query (limit * 2))
      semRes).mergeSort totalDescBool).take limit).Pairwise
      (fun a b => b.totalScore ≤ a.totalScore) := by
    have hp := List.sorted_mergeSort totalDescBool_trans totalDescBool_total
      (combinedResults 0 1 (searchByText db query (limit * 2)) semRes)
    exact (hp.sublist (List.take_sublist _ _)).imp fun hb => by
      simpa [totalDescBool] using hb
  refine ⟨?_, ?_, ?_⟩
  · intro e he d hd hde
    exact hTot e (hmemres e he) d hd hde
  · intro d hd d' hd' e he e' he' hed he'd hlt hsub
    have h1e : e.totalScore = d.similarity := hTot e (hmemres e he) d hd hed.symm
    have h2e : e'.totalScore = d'.similarity := hTot e' (hmemres e' he') d' hd' he'd.symm
    have hrel := (hsorted.sublist hsub)
    have := (List.pairwise_cons.mp hrel).1 e (List.mem_singleton.mpr rfl)
    rw [h1e, h2e] at this
    exact absurd this (not_le.mpr hlt)
  · intro a ha ha1 hstrict hlim
    have haid : a.id ∈ (combinedResults 0 1 (searchByText db query (limit * 2))
        semRes).map fun e => e.id := h6 a ha
    rcases List.mem_map.mp haid with ⟨ea, hea, heaid⟩
    have heatot : ea.totalScore = 1 := by
      rw [hTot ea hea a ha heaid.symm]
      exact ha1
    have hstrict' : ∀ e ∈ combinedResults 0 1 (searchByText db query (limit * 2))
        semRes, e.id ≠ a.id → e.totalScore < 1 := by
      intro e he hne
      by_cases hin : e.id ∈ semRes.map fun r => r.id
      · rcases List.mem_map.mp hin with ⟨d, hd, hde⟩
        rw [hTot e he d hd hde]
        exact hstrict d hd (by rw [hde]; exact hne)
      · have hs0 := h5 e he hin
        have htext0 : e.textScore = 0 := by
          rcases h3 e he with ⟨ht1, ht2⟩
          by_cases hin2 : e.id ∈ (searchByText db query (limit * 2)).map fun d => d.id
          · exact ht1 hin2
          · exact ht2 hin2
        rw [h2 e he, hs0, htext0]
        norm_num
    have heas : ea ∈ (combinedResults 0 1 (searchByText db query (limit * 2))
        semRes).mergeSort totalDescBool := List.mem_mergeSort.mpr hea
    cases hS : (combinedResults 0 1 (searchByText db query (limit * 2))
        semRes).mergeSort totalDescBool with
    | nil => rw [hS] at heas; cases heas
    | cons z rest =>
      have hz : z ∈ combinedResults 0 1 (searchByText db query (limit * 2)) semRes :=
        List.mem_mergeSort.mp (hS ▸ List.mem_cons_self z rest)
      have hzle : z.totalScore ≤ 1 := hBound z hz
      have hzge : 1 ≤ z.totalScore := by
        rw [hS] at heas
        rcases List.mem_cons.mp heas with rfl | hrest
        · rw [heatot]
        · have hp := List.sorted_mergeSort totalDescBool_trans totalDescBool_total
            (combinedResults 0 1 (searchByText db query (limit * 2)) semRes)
          rw [hS] at hp
          have := (List.pairwise_cons.mp hp).1 ea hrest
          rw [← heatot]
          simpa [totalDescBool] using this
      have hz1 : z.totalScore = 1 := le_antisymm hzle hzge
      have hzid : z.id = a.id := by
        by_contra hne
        exact absurd hz1 (ne_of_lt (hstrict' z hz hne))
      refine ⟨z, ?_, hzid, hz1⟩
      rw [head?_take_pos _ _ hlim]
      rfl

theorem scored_dbHybridTie :
    scoredCandidates dbHybridTie [1] true none =
      .ok [⟨2, "zzz", "second", 0, 1, 0⟩, ⟨1, "apple pie", "first", 0, 1, 0⟩] := by
  rw [scoredCandidates]
  simp [candidateRows, joinRows, dbHybridTie, mapE, scoreDoc, parseEmbedding,
    cosineSimilarity, ok_bind, pure_eq_ok]

theorem searchSimilar_dbHybridTie :
    searchSimilar dbHybridTie [1] 10 true none =
      .ok [⟨2, "zzz", "second", 0, 1, 0⟩, ⟨1, "apple pie", "first", 0, 1, 0⟩] := by
  rw [searchSimilar_ok scored_dbHybridTie]
  rw [show applyMinSimilarity none
      [⟨2, "zzz", "second", 0, 1, 0⟩, ⟨1, "apple pie", "first", 0, 1, 0⟩] =
      [(⟨2, "zzz", "second", 0, 1, 0⟩ : ScoredResult), ⟨1, "apple pie", "first", 0, 1, 0⟩]
      from rfl]
  rw [List.mergeSort_of_sorted (by simp [List.pairwise_cons, simDescBool])]
  simp [effectiveMax]

theorem searchByText_dbHybridTie :
    searchByText dbHybridTie "apple" 10 = [⟨1, "apple pie", "first", 0⟩] := by
  rw [searchByText]
  rw [show dbHybridTie.documents.filter (textWhere "apple") =
      [⟨1, "apple pie", "first", 0⟩] from rfl]
  rw [List.mergeSort_singleton]
  rfl

theorem hybrid_dbHybridTie :
    hybridSearch dbHybridTie "apple" [1] 0 1 5 =
      .ok [⟨1, "apple pie", "first", 0, 1, 0, 0, 1, 1⟩,
        ⟨2, "zzz", "second", 0, 1, 0, 0, 1, 1⟩] := by
  rw [hybridSearch, show (5 * 2 : ℕ) = 10 from rfl, searchSimilar_dbHybridTie, ok_bind,
    pure_eq_ok, searchByText_dbHybridTie]
  rw [show combinedResults 0 1 [⟨1, "apple pie", "first", 0⟩]
      [⟨2, "zzz", "second", 0, 1, 0⟩, ⟨1, "apple pie", "first", 0, 1, 0⟩] =
      [(⟨1, "apple pie", "first", 0, 1, 0, 0, 1, 1⟩ : HybridResult),
        ⟨2, "zzz", "second", 0, 1, 0, 0, 1, 1⟩] from by
    rw [combinedResults]
    simp [addTextResult, addSemanticResult, textEntry, semanticEntry]]
  rw [List.mergeSort_of_sorted (by simp [List.pairwise_cons, totalDescBool])]
  rfl

/-- C8 counterexample: over `dbHybridTie` both documents tie at similarity 1;
`searchSimilar` returns them as ids `[2, 1]` (store order), yet
`hybridSearch` with `textWeight = 0, semanticWeight = 1` returns ids `[1, 2]`:
the text hit (document 1) enters the combined map first and the stable sort
keeps it ahead, so the hybrid ranking does not reproduce `searchSimilar`'s
relative order for documents present in both. -/
theorem C8_counterexample :
    Except.map (List.map fun r => r.id) (searchSimilar dbHybridTie [1] 10 true none) =
      Except.ok [2, 1] ∧
    Except.map (List.map fun e => e.id) (hybridSearch dbHybridTie "apple" [1] 0 1 5) =
      Except.ok [1, 2] := by
  rw [searchSimilar_dbHybridTie, hybrid_dbHybridTie]
  exact ⟨rfl, rfl⟩

theorem scored_dbDistinct :
    scoredCandidates dbDistinct [1] true none =
      .ok [⟨1, "A", "first", 0, 1, 0⟩, ⟨3, "C", "third", 0, 0, 1⟩,
        ⟨2, "B", "second", 0, -1, 2⟩] := by
  rw [scoredCandidates]
  simp [candidateRows, joinRows, dbDistinct, mapE, scoreDoc, parseEmbedding,
    cosineSimilarity, ok_bind, pure_eq_ok]
  norm_num

theorem searchSimilar_dbDistinct :
    searchSimilar dbDistinct [1] 10 true none =
      .ok [⟨1, "A", "first", 0, 1, 0⟩, ⟨3, "C", "third", 0, 0, 1⟩,
        ⟨2, "B", "second", 0, -1, 2⟩] := by
  rw [searchSimilar_ok scored_dbDistinct]
  rw [show applyMinSimilarity none
      [⟨1, "A", "first", 0, 1, 0⟩, ⟨3, "C", "third", 0, 0, 1⟩,
        ⟨2, "B", "second", 0, -1, 2⟩] =
      [(⟨1, "A", "first", 0, 1, 0⟩ : ScoredResult), ⟨3, "C", "third", 0, 0, 1⟩,
        ⟨2, "B", "second", 0, -1, 2⟩] from rfl]
  rw [List.mergeSort_of_sorted (by simp [List.pairwise_cons, simDescBool])]
  simp [effectiveMax]

theorem searchByText_dbDistinct :
    searchByText dbDistinct "qqq" 10 = [] := by
  rw [searchByText]
  rw [show dbDistinct.documents.filter (textWhere "qqq") = [] from rfl]
  rw [List.mergeSort_nil]
  rfl

theorem hybrid_dbDistinct :
    hybridSearch dbDistinct "qqq" [1] 0 1 5 =
      .ok [⟨1, "A", "first", 0, 1, 0, 0, 1, 1⟩, ⟨3, "C", "third", 0, 0, 1, 0, 0, 0⟩,
        ⟨2, "B", "second", 0, -1, 2, 0, -1, -1⟩] := by
  rw [hybridSearch, show (5 * 2 : ℕ) = 10 from rfl, searchSimilar_dbDistinct, ok_bind,
    pure_eq_ok, searchByText_dbDistinct]
  rw [show combinedResults 0 1 []
      [⟨1, "A", "first", 0, 1, 0⟩, ⟨3, "C", "third", 0, 0, 1⟩,
        ⟨2, "B", "second", 0, -1, 2⟩] =
      [(⟨1, "A", "first", 0, 1, 0, 0, 1, 1⟩ : HybridResult),
        ⟨3, "C", "third", 0, 0, 1, 0, 0, 0⟩,
        ⟨2, "B", "second", 0, -1, 2, 0, -1, -1⟩] from by
    rw [combinedResults]
    simp [addTextResult, addSemanticResult, textEntry, semanticEntry]]
  rw [List.mergeSort_of_sorted (by simp [List.pairwise_cons, totalDescBool])]
  rfl

/-- Witness for C8 at the concrete corpus `dbDistinct` (similarities 1, 0, -1
against the query `[1]`, no text match for "qqq"): document 1 matches the
query exactly and is ranked first with totalScore 1. -/
theorem C8_witness :
    (∀ e ∈ ([⟨1, "A", "first", 0, 1, 0, 0, 1, 1⟩, ⟨3, "C", "third", 0, 0, 1, 0, 0, 0⟩,
        ⟨2, "B", "second", 0, -1, 2, 0, -1, -1⟩] : List HybridResult),
      ∀ d ∈ ([⟨1, "A", "first", 0, 1, 0⟩, ⟨3, "C", "third", 0, 0, 1⟩,
        ⟨2, "B", "second", 0, -1, 2⟩] : List ScoredResult), d.id = e.id →
        e.totalScore = d.similarity) ∧
    (∀ d ∈ ([⟨1, "A", "first", 0, 1, 0⟩, ⟨3, "C", "third", 0, 0, 1⟩,
        ⟨2, "B", "second", 0, -1, 2⟩] : List ScoredResult),
      ∀ d' ∈ ([⟨1, "A", "first", 0, 1, 0⟩, ⟨3, "C", "third", 0, 0, 1⟩,
        ⟨2, "B", "second", 0, -1, 2⟩] : List ScoredResult),
      ∀ e ∈ ([⟨1, "A", "first", 0, 1, 0, 0, 1, 1⟩, ⟨3, "C", "third", 0, 0, 1, 0, 0, 0⟩,
        ⟨2, "B", "second", 0, -1, 2, 0, -1, -1⟩] : List HybridResult),
      ∀ e' ∈ ([⟨1, "A", "first", 0, 1, 0, 0, 1, 1⟩, ⟨3, "C", "third", 0, 0, 1, 0, 0, 0⟩,
        ⟨2, "B", "second", 0, -1, 2, 0, -1, -1⟩] : List HybridResult),
      e.id = d.id → e'.id = d'.id → d'.similarity < d.similarity →
        ¬ List.Sublist [e', e]
          ([⟨1, "A", "first", 0, 1, 0, 0, 1, 1⟩, ⟨3, "C", "third", 0, 0, 1, 0, 0, 0⟩,
            ⟨2, "B", "second", 0, -1, 2, 0, -1, -1⟩] : List HybridResult)) ∧
    (∀ a ∈ ([⟨1, "A", "first", 0, 1, 0⟩, ⟨3, "C", "third", 0, 0, 1⟩,
        ⟨2, "B", "second", 0, -1, 2⟩] : List ScoredResult), a.similarity = 1 →
      (∀ d ∈ ([⟨1, "A", "first", 0, 1, 0⟩, ⟨3, "C", "third", 0, 0, 1⟩,
        ⟨2, "B", "second", 0, -1, 2⟩] : List ScoredResult), d.id ≠ a.id →
          d.similarity < 1) → 0 < 5 →
      ∃ e, ([⟨1, "A", "first", 0, 1, 0, 0, 1, 1⟩, ⟨3, "C", "third", 0, 0, 1, 0, 0, 0⟩,
        ⟨2, "B", "second", 0, -1, 2, 0, -1, -1⟩] : List HybridResult).head? = some e ∧
        e.id = a.id ∧ e.totalScore = 1) :=
  C8_semantic_ranking dbDistinct "qqq" [1] 5 _ _
    (by simp [candidateRows, joinRows, dbDistinct])
    (by simp [dbDistinct])
    (by rw [show (5 * 2 : ℕ) = 10 from rfl]; exact searchSimilar_dbDistinct)
    hybrid_dbDistinct

end SearchRepo
